import Mathlib

/-!
# Hill climbing with side stepping on the 8-puzzle

A shallow embedding of `src/main.cpp`.

* `std::vector<std::vector<int>>` is `List (List Int)`; `board[i][j]` is `cell`.
  An access outside the vector is undefined behaviour in the source; `cell` gives
  `0` there and `setCell` leaves the board alone, and the theorems only speak about
  states whose boards are 3x3 and whose coordinates lie inside the grid.
* `int` is `Int`; on boards with entries in `0..8` no operation leaves the range of
  a machine integer. C++ `/` and `%` truncate towards zero: `Int.tdiv`, `Int.tmod`.
* `std::string` is `List Char`; `std::unordered_set<std::string>` is a list without
  repetitions, `insert` being `List.insert` and `size` being `List.length`.
* `std::sort` is a parameter `sortMoves` of the driver: the standard only promises
  a permutation of the input that is ordered by the comparator (`SortContract`).
  `stdSortMoves` is the insertion sort libstdc++ runs on ranges of at most 16
  elements, and `insertionSortMoves` is the same function written as a recursion
  on the list; it is the instance used to run the driver.
* `rand()` is a parameter `rand : Nat → Nat`, the sequence of values returned by the
  successive calls; the driver counts the calls in `randCalls`.
* `printBoard` appends the printed pair (heuristic, board) to `output`.
* the `while` loop is `loopBody` (one pass) iterated by `hillClimbLoop` with fuel.
-/

namespace HillClimbing

/-! ## Constants and the puzzle state -/

/-- Side length of the board. -/
def N : Nat := 3

/-- Largest number of consecutive side steps. -/
def MAX_SIDE_STEPS : Nat := 5

/-- The struct `PuzzleState`. -/
structure PuzzleState where
  board : List (List Int)
  emptyRow : Int
  emptyCol : Int
  heuristic : Int
deriving DecidableEq, Repr

/-- Read `board[i][j]`. -/
def cell (b : List (List Int)) (i j : Nat) : Int :=
  (b.getD i []).getD j 0

/-- Write `board[i][j] = v`. -/
def setCell (b : List (List Int)) (i j : Nat) (v : Int) : List (List Int) :=
  b.set i ((b.getD i []).set j v)

/-- Contribution of cell `(i, j)` to the distance: the body of the inner loop of
`calculateAndSetHeuristic`. -/
def cellDistance (b : List (List Int)) (i j : Nat) : Int :=
  if cell b i j ≠ 0 then
    let targetRow := (cell b i j - 1).tdiv (N : Int)
    let targetCol := (cell b i j - 1).tmod (N : Int)
    |(i : Int) - targetRow| + |(j : Int) - targetCol|
  else 0

/-- The two nested loops of `calculateAndSetHeuristic`, accumulating `distance`. -/
def manhattan (b : List (List Int)) : Int :=
  (List.range N).foldl
    (fun distance i => (List.range N).foldl (fun distance j => distance + cellDistance b i j) distance)
    0

/-- The method `calculateAndSetHeuristic`. -/
def calculateAndSetHeuristic (s : PuzzleState) : PuzzleState :=
  { s with heuristic := manhattan s.board }

/-- The constructor `PuzzleState(board, emptyRow, emptyCol)`. -/
def PuzzleState.new (board : List (List Int)) (emptyRow emptyCol : Int) : PuzzleState :=
  calculateAndSetHeuristic { board := board, emptyRow := emptyRow, emptyCol := emptyCol, heuristic := 0 }

/-! ## Keys -/

/-- Decimal digit as a character. -/
def digitChar (d : Nat) : Char := Char.ofNat (48 + d)

/-- Decimal digits of a natural number, most significant first, in front of `acc`. -/
def natDigitsAux : Nat → Nat → List Char → List Char
  | 0, _, acc => acc
  | fuel + 1, n, acc =>
    if n / 10 = 0 then digitChar (n % 10) :: acc
    else natDigitsAux fuel (n / 10) (digitChar (n % 10) :: acc)

/-- Decimal representation of a natural number. -/
def natToString (n : Nat) : List Char := natDigitsAux (n + 1) n []

/-- The function `std::to_string(int)`. -/
def to_string (v : Int) : List Char :=
  if v < 0 then '-' :: natToString v.natAbs else natToString v.natAbs

/-- The method `toString`: every tile in row-major order, each followed by a comma. -/
def toString (s : PuzzleState) : List Char :=
  s.board.foldl (fun state row => row.foldl (fun state tile => state ++ (to_string tile ++ [','])) state) []

/-! ## Goal test -/

/-- The loops of `isGoal` over the cells still to be inspected, `k` being the next
expected tile. -/
def isGoalLoop (b : List (List Int)) : List (Nat × Nat) → Int → Bool
  | [], _ => true
  | (i, j) :: rest, k =>
    if i = N - 1 ∧ j = N - 1 then cell b i j == 0
    else if cell b i j ≠ k then false
    else isGoalLoop b rest (k + 1)

/-- Cells in the order the nested loops visit them. -/
def cellOrder : List (Nat × Nat) :=
  (List.range N).flatMap (fun i => (List.range N).map (fun j => (i, j)))

/-- The method `isGoal`. -/
def isGoal (s : PuzzleState) : Bool := isGoalLoop s.board cellOrder 1

/-! ## Moves -/

/-- The method `swapTiles`. -/
def swapTiles (s : PuzzleState) (r1 c1 r2 c2 : Int) : PuzzleState :=
  let a := cell s.board r1.toNat c1.toNat
  let b := cell s.board r2.toNat c2.toNat
  { s with
    board := setCell (setCell s.board r1.toNat c1.toNat b) r2.toNat c2.toNat a
    emptyRow := r2
    emptyCol := c2 }

/-- The vector `directions`: up, down, left, right. -/
def directions : List (Int × Int) := [(-1, 0), (1, 0), (0, -1), (0, 1)]

/-- One pass of the loop of `generateMoves`; the state is the pair of the object
itself and the vector `moves`. -/
def generateMovesBody (acc : PuzzleState × List PuzzleState) (d : Int × Int) :
    PuzzleState × List PuzzleState :=
  let self := acc.1
  let newRow := self.emptyRow + d.1
  let newCol := self.emptyCol + d.2
  if newRow ≥ 0 ∧ newRow < (N : Int) ∧ newCol ≥ 0 ∧ newCol < (N : Int) then
    let newState := self
    let newState := swapTiles newState self.emptyRow self.emptyCol newRow newCol
    let newState := calculateAndSetHeuristic newState
    (self, acc.2 ++ [newState])
  else acc

/-- The method `generateMoves` together with the object it was called on. -/
def generateMovesRun (s : PuzzleState) : PuzzleState × List PuzzleState :=
  directions.foldl generateMovesBody (s, [])

/-- The method `generateMoves`. -/
def generateMoves (s : PuzzleState) : List PuzzleState := (generateMovesRun s).2

/-! ## The driver -/

/-- Variables of `hillClimbWithSideStepping`, with the number of calls of `rand()`
made so far and what `printBoard` has written. -/
structure Driver where
  currentState : PuzzleState
  visitedStates : List (List Char)
  sideSteps : Nat
  randCalls : Nat
  output : List (Int × List (List Int))
deriving DecidableEq

/-- How one pass of the `while` loop ends. -/
inductive Step where
  | next (d : Driver)
  | solved (d : Driver)
  | noMoves (d : Driver)
  | limitReached (d : Driver)
deriving DecidableEq

/-- Variables at the entry of the loop. -/
def initDriver (initialState : PuzzleState) : Driver :=
  { currentState := initialState
    visitedStates := List.insert (toString initialState) []
    sideSteps := 0
    randCalls := 0
    output := [] }

/-- The moves left by `remove_if` and `erase`: those whose key is not visited. -/
def unvisited (visitedStates : List (List Char)) (moves : List PuzzleState) : List PuzzleState :=
  moves.filter (fun state => !(decide (toString state ∈ visitedStates)))

/-- One pass of the `while` loop. -/
def loopBody (sortMoves : List PuzzleState → List PuzzleState) (rand : Nat → Nat)
    (d : Driver) : Step :=
  if isGoal d.currentState then Step.solved d
  else
    let d := { d with output := d.output ++ [(d.currentState.heuristic, d.currentState.board)] }
    let moves := generateMoves d.currentState
    let moves := unvisited d.visitedStates moves
    let moves := sortMoves moves
    match moves with
    | [] => Step.noMoves d
    | m0 :: rest =>
      if m0.heuristic < d.currentState.heuristic then
        Step.next { d with
          currentState := m0
          visitedStates := List.insert (toString m0) d.visitedStates
          sideSteps := 0 }
      else if d.sideSteps < MAX_SIDE_STEPS then
        let randomIndex := rand d.randCalls % (m0 :: rest).length
        let chosen := (m0 :: rest).getD randomIndex m0
        Step.next { d with
          currentState := chosen
          visitedStates := List.insert (toString chosen) d.visitedStates
          sideSteps := d.sideSteps + 1
          randCalls := d.randCalls + 1 }
      else Step.limitReached d

/-- The `while` loop, run for at most `fuel` passes; `none` when the fuel is used up
before the loop is left. -/
def hillClimbLoop (sortMoves : List PuzzleState → List PuzzleState) (rand : Nat → Nat) :
    Nat → Driver → Option Driver
  | 0, _ => none
  | fuel + 1, d =>
    match loopBody sortMoves rand d with
    | Step.next d1 => hillClimbLoop sortMoves rand fuel d1
    | Step.solved d1 => some d1
    | Step.noMoves d1 => some d1
    | Step.limitReached d1 => some d1

/-- The function `hillClimbWithSideStepping`. -/
def hillClimbWithSideStepping (sortMoves : List PuzzleState → List PuzzleState)
    (rand : Nat → Nat) (fuel : Nat) (initialState : PuzzleState) : Option PuzzleState :=
  (hillClimbLoop sortMoves rand fuel (initDriver initialState)).map Driver.currentState

/-- The driver state after `k` completed passes, when the loop is still running. -/
def afterPasses (sortMoves : List PuzzleState → List PuzzleState) (rand : Nat → Nat) :
    Nat → Driver → Option Driver
  | 0, d => some d
  | k + 1, d =>
    match loopBody sortMoves rand d with
    | Step.next d1 => afterPasses sortMoves rand k d1
    | _ => none

/-- The board of `main`. -/
def mainBoard : List (List Int) := [[1, 2, 3], [4, 0, 6], [7, 5, 8]]

/-- The state `initialState` of `main`. -/
def mainState : PuzzleState := PuzzleState.new mainBoard 1 1

/-- What `std::sort` with the comparator `a.heuristic < b.heuristic` promises. -/
def SortContract (sortMoves : List PuzzleState → List PuzzleState) : Prop :=
  ∀ l, List.Perm (sortMoves l) l ∧
    List.Pairwise (fun a b : PuzzleState => a.heuristic ≤ b.heuristic) (sortMoves l)

/-- Insertion of one state in front of the first state that is not smaller: a state
stays in front of the states of equal heuristic that came after it. -/
def insertMove (a : PuzzleState) : List PuzzleState → List PuzzleState
  | [] => [a]
  | b :: l => if a.heuristic ≤ b.heuristic then a :: b :: l else b :: insertMove a l

/-- A stable insertion sort by heuristic. -/
def insertionSortMoves : List PuzzleState → List PuzzleState
  | [] => []
  | a :: l => insertMove a (insertionSortMoves l)

/-- Insertion of one state in front of the first state it is smaller than: it goes
behind the states of equal heuristic. -/
def insertMoveBehind (a : PuzzleState) : List PuzzleState → List PuzzleState
  | [] => [a]
  | b :: l => if a.heuristic < b.heuristic then a :: b :: l else b :: insertMoveBehind a l

/-! ## The sort of the library

The function `std::sort` of libstdc++ (`bits/stl_algo.h`) on a range of at most 16
elements: `__introsort_loop` does nothing there and `__final_insertion_sort` is
`__insertion_sort`. `generateMoves` returns at most four moves. -/

/-- The function `__unguarded_linear_insert`: `val` moves towards the front past every
element it is smaller than, `comp(val, next)` being `val.heuristic < next.heuristic`.
The list holds the elements in front of `val`, the nearest first, and the result
is in the same order. -/
def unguardedLinearInsert (val : PuzzleState) : List PuzzleState → List PuzzleState
  | [] => [val]
  | next :: more =>
    if val.heuristic < next.heuristic then next :: unguardedLinearInsert val more
    else val :: next :: more

/-- One pass of the loop of `__insertion_sort`: an element smaller than the first goes
to the front, any other is placed by `__unguarded_linear_insert`. -/
def insertionSortStep (val : PuzzleState) (sorted : List PuzzleState) : List PuzzleState :=
  match sorted with
  | [] => [val]
  | first :: _ =>
    if val.heuristic < first.heuristic then val :: sorted
    else (unguardedLinearInsert val sorted.reverse).reverse

/-- The loop of `__insertion_sort` over the elements behind the sorted range. -/
def insertionSortLoop : List PuzzleState → List PuzzleState → List PuzzleState
  | sorted, [] => sorted
  | sorted, val :: rest => insertionSortLoop (insertionSortStep val sorted) rest

/-- The call `sort(moves.begin(), moves.end(), comp)` as libstdc++ runs it. -/
def stdSortMoves : List PuzzleState → List PuzzleState
  | [] => []
  | first :: rest => insertionSortLoop [first] rest

/-! ## Predicates used in the statements -/

/-- A board of three rows of three cells. -/
def is3x3 (b : List (List Int)) : Prop :=
  b.length = 3 ∧ ∀ row ∈ b, row.length = 3

instance (b : List (List Int)) : Decidable (is3x3 b) := by
  unfold is3x3; infer_instance

/-- The goal board. -/
def goalBoard : List (List Int) := [[1, 2, 3], [4, 5, 6], [7, 8, 0]]

/-- The board is 3x3 and holds each of `0..8` once. -/
def validBoard (b : List (List Int)) : Prop :=
  is3x3 b ∧ List.Perm b.flatten [0, 1, 2, 3, 4, 5, 6, 7, 8]

instance (b : List (List Int)) : Decidable (validBoard b) := by
  unfold validBoard; infer_instance

/-- The coordinates of the empty cell lie inside the grid. -/
def emptyInGrid (s : PuzzleState) : Prop :=
  0 ≤ s.emptyRow ∧ s.emptyRow < 3 ∧ 0 ≤ s.emptyCol ∧ s.emptyCol < 3

instance (s : PuzzleState) : Decidable (emptyInGrid s) := by
  unfold emptyInGrid; infer_instance

/-- A valid state: a valid board whose `0` is at `(emptyRow, emptyCol)`. -/
def Valid (s : PuzzleState) : Prop :=
  validBoard s.board ∧ emptyInGrid s ∧ cell s.board s.emptyRow.toNat s.emptyCol.toNat = 0

instance (s : PuzzleState) : Decidable (Valid s) := by
  unfold Valid; infer_instance


/-! ## The heuristic as the specification words it -/

/-- The sum the specification gives for the heuristic, with the floor division and
remainder of `Int`. -/
def manhattanSpec (b : List (List Int)) : Int :=
  ∑ i in Finset.range 3, ∑ j in Finset.range 3,
    if cell b i j ≠ 0 then
      |(i : Int) - (cell b i j - 1) / 3| + |(j : Int) - (cell b i j - 1) % 3|
    else 0

/-- Every entry of the board lies in `0..8`. -/
def tilesInRange (b : List (List Int)) : Prop :=
  ∀ row ∈ b, ∀ v ∈ row, 0 ≤ v ∧ v ≤ 8

instance (b : List (List Int)) : Decidable (tilesInRange b) := by
  unfold tilesInRange; infer_instance


/-! ## Successors, direction by direction -/

/-- The test of `generateMoves` on the target cell of direction `d`. -/
def targetInGrid (s : PuzzleState) (d : Int × Int) : Bool :=
  decide (s.emptyRow + d.1 ≥ 0 ∧ s.emptyRow + d.1 < (N : Int) ∧
    s.emptyCol + d.2 ≥ 0 ∧ s.emptyCol + d.2 < (N : Int))

/-- The state `generateMoves` pushes for direction `d`. -/
def successor (s : PuzzleState) (d : Int × Int) : PuzzleState :=
  calculateAndSetHeuristic
    (swapTiles s s.emptyRow s.emptyCol (s.emptyRow + d.1) (s.emptyCol + d.2))

/-- The empty cell is at a corner of the grid. -/
def atCorner (s : PuzzleState) : Prop :=
  (s.emptyRow = 0 ∨ s.emptyRow = 2) ∧ (s.emptyCol = 0 ∨ s.emptyCol = 2)

instance (s : PuzzleState) : Decidable (atCorner s) := by
  unfold atCorner; infer_instance

/-- The empty cell is at the centre of the grid. -/
def atCentre (s : PuzzleState) : Prop :=
  s.emptyRow = 1 ∧ s.emptyCol = 1

instance (s : PuzzleState) : Decidable (atCentre s) := by
  unfold atCentre; infer_instance

/-- The empty cell is on the border of the grid but not at a corner. -/
def atEdge (s : PuzzleState) : Prop :=
  emptyInGrid s ∧ (s.emptyRow = 0 ∨ s.emptyRow = 2 ∨ s.emptyCol = 0 ∨ s.emptyCol = 2) ∧
    ¬ atCorner s

instance (s : PuzzleState) : Decidable (atEdge s) := by
  unfold atEdge; infer_instance

/-! ## The invariant of the driver -/

/-- The key of a board given by its cells in row-major order. -/
def flatKey (l : List Int) : List Char :=
  l.foldl (fun state tile => state ++ (to_string tile ++ [','])) []

/-- The keys of all arrangements of the tiles `0..8`. -/
def permKeys : List (List Char) :=
  (List.permutations ([0, 1, 2, 3, 4, 5, 6, 7, 8] : List Int)).map flatKey

/-- The number of arrangements of nine tiles, `9!`. -/
def keyBound : Nat := 362880

/-- What holds of the variables of the driver at the top of every pass. -/
def DriverInv (d : Driver) : Prop :=
  Valid d.currentState ∧ (∀ k ∈ d.visitedStates, k ∈ permKeys) ∧ d.visitedStates.Nodup ∧
    toString d.currentState ∈ d.visitedStates

/-! ## Reading a key back -/

/-- The digit a decimal character stands for. -/
def charDigit (c : Char) : Nat := c.toNat - 48

/-- The number a string of decimal digits stands for. -/
def natOfString (cs : List Char) : Nat := Nat.ofDigits 10 ((cs.map charDigit).reverse)

/-! ## The run of `main` -/

/-- The state after the empty cell of `mainState` has moved down. -/
def mainDown : PuzzleState :=
  { board := [[1, 2, 3], [4, 5, 6], [7, 0, 8]], emptyRow := 2, emptyCol := 1, heuristic := 1 }

/-- The goal board with its empty cell and heuristic. -/
def goalState : PuzzleState :=
  { board := goalBoard, emptyRow := 2, emptyCol := 2, heuristic := 0 }

/-- The variables of the driver after the first pass on `mainState`. -/
def mainPass1 : Driver :=
  { currentState := mainDown
    visitedStates := [toString mainDown, toString mainState]
    sideSteps := 0
    randCalls := 0
    output := [(2, mainBoard)] }

/-- The variables of the driver after the second pass on `mainState`. -/
def mainPass2 : Driver :=
  { currentState := goalState
    visitedStates := [toString goalState, toString mainDown, toString mainState]
    sideSteps := 0
    randCalls := 0
    output := [(2, mainBoard), (1, mainDown.board)] }

/-! ## Further states used in the statements -/

/-- A valid state whose empty cell is in the middle of the top edge. -/
def edgeState : PuzzleState := PuzzleState.new [[1, 0, 2], [3, 4, 5], [6, 7, 8]] 0 1

/-- A valid state none of whose successors lowers the heuristic. -/
def plateauState : PuzzleState := PuzzleState.new [[1, 2, 3], [4, 5, 6], [8, 7, 0]] 2 2

/-- The first state of a list whose heuristic is the least of the list. -/
def firstMinimal (l : List PuzzleState) : Option PuzzleState :=
  l.find? (fun t => l.all (fun x => decide (t.heuristic ≤ x.heuristic)))

/-- A valid state all four of whose successors lower the heuristic by the same
amount. -/
def tieState : PuzzleState := PuzzleState.new [[1, 8, 3], [6, 0, 4], [7, 2, 5]] 1 1

/-! ## The distance of one tile, and inversions -/

/-- The Manhattan distance of the tile `v` at the cell `(i, j)` to its goal cell; 0 for
the empty cell. -/
def tileDistance (v : Int) (i j : Nat) : Int :=
  if v ≠ 0 then
    let targetRow := (v - 1).tdiv (N : Int)
    let targetCol := (v - 1).tmod (N : Int)
    |(i : Int) - targetRow| + |(j : Int) - targetCol|
  else 0

/-- One when `a` is smaller than `b`, zero otherwise. -/
def lt01 (a b : Int) : Nat := if a < b then 1 else 0

/-- The number of pairs of a sequence in which the larger value stands first. -/
def inversions : List Int → Nat
  | [] => 0
  | a :: l => (l.map (fun b => lt01 b a)).sum + inversions l

/-- The non-zero tiles of a board in row-major order. -/
def tiles (b : List (List Int)) : List Int :=
  b.flatten.filter (fun v => decide (v ≠ 0))

/-- The number of inversions of the tiles of a state. -/
def inversionCount (s : PuzzleState) : Nat := inversions (tiles s.board)

/-- The state `mainState` after a call of `swapTiles` that is not followed by
`calculateAndSetHeuristic`: a valid state whose stored heuristic is that of the board
before the call. -/
def staleState : PuzzleState := swapTiles mainState 1 1 2 1
/-! ## Boards and the heuristic -/

theorem is3x3_rows {b : List (List Int)} (h : is3x3 b) :
    ∃ a0 a1 a2 a3 a4 a5 a6 a7 a8 : Int, b = [[a0, a1, a2], [a3, a4, a5], [a6, a7, a8]] := by
  obtain ⟨hl, hr⟩ := h
  match b, hl, hr with
  | [r0, r1, r2], _, hr =>
    have h0 := hr r0 (by simp)
    have h1 := hr r1 (by simp)
    have h2 := hr r2 (by simp)
    match r0, r1, r2, h0, h1, h2 with
    | [a0, a1, a2], [a3, a4, a5], [a6, a7, a8], _, _, _ =>
      exact ⟨a0, a1, a2, a3, a4, a5, a6, a7, a8, rfl⟩

theorem isGoal_rows (a0 a1 a2 a3 a4 a5 a6 a7 a8 er ec h : Int) :
    isGoal ⟨[[a0, a1, a2], [a3, a4, a5], [a6, a7, a8]], er, ec, h⟩ = true ↔
      [[a0, a1, a2], [a3, a4, a5], [a6, a7, a8]] = goalBoard := by
  simp [isGoal, isGoalLoop, cellOrder, cell, N, goalBoard, List.range, List.range.loop]
  tauto

theorem manhattan_cells (b : List (List Int)) :
    manhattan b =
      cellDistance b 0 0 + cellDistance b 0 1 + cellDistance b 0 2 +
      cellDistance b 1 0 + cellDistance b 1 1 + cellDistance b 1 2 +
      cellDistance b 2 0 + cellDistance b 2 1 + cellDistance b 2 2 := by
  simp [manhattan, N, List.range, List.range.loop]

theorem cellDistance_nonneg (b : List (List Int)) (i j : Nat) : 0 ≤ cellDistance b i j := by
  unfold cellDistance
  split
  · exact add_nonneg (abs_nonneg _) (abs_nonneg _)
  · exact le_refl 0

theorem manhattan_nonneg (b : List (List Int)) : 0 ≤ manhattan b := by
  rw [manhattan_cells]
  have h := cellDistance_nonneg b
  linarith [h 0 0, h 0 1, h 0 2, h 1 0, h 1 1, h 1 2, h 2 0, h 2 1, h 2 2]

/-- On a tile in `0..8` the distance of a cell is zero exactly when the cell is empty
or holds the tile of its own position. -/
theorem cellDistance_eq_zero_iff (b : List (List Int)) (i j : Nat) (hi : i < 3) (hj : j < 3)
    (h0 : 0 ≤ cell b i j) (h8 : cell b i j ≤ 8) :
    cellDistance b i j = 0 ↔ cell b i j = 0 ∨ cell b i j = 3 * i + j + 1 := by
  unfold cellDistance
  generalize cell b i j = v at *
  interval_cases v <;> interval_cases i <;> interval_cases j <;> simp [N] <;> decide

theorem tile_off {x v k : Int} (d : x = 0 ∨ x = k) (h : v = x) (hv : v ≠ 0) (hk : v ≠ k) :
    False := by
  rcases d with d | d
  · exact hv (h.trans d)
  · exact hk (h.trans d)

theorem validBoard_mem {a0 a1 a2 a3 a4 a5 a6 a7 a8 : Int}
    (h : validBoard [[a0, a1, a2], [a3, a4, a5], [a6, a7, a8]]) (v : Int) :
    (v = a0 ∨ v = a1 ∨ v = a2 ∨ v = a3 ∨ v = a4 ∨ v = a5 ∨ v = a6 ∨ v = a7 ∨ v = a8) ↔
      (0 ≤ v ∧ v ≤ 8) := by
  have hm := h.2.mem_iff (a := v)
  simp only [List.flatten, List.cons_append, List.nil_append, List.append_nil, List.mem_cons,
    List.mem_singleton, List.not_mem_nil, or_false] at hm
  rw [hm]
  omega

/-- A valid board whose cells all have distance zero is the goal board. -/
theorem valid_zero_goal {a0 a1 a2 a3 a4 a5 a6 a7 a8 : Int}
    (h : validBoard [[a0, a1, a2], [a3, a4, a5], [a6, a7, a8]])
    (hz : manhattan [[a0, a1, a2], [a3, a4, a5], [a6, a7, a8]] = 0) :
    [[a0, a1, a2], [a3, a4, a5], [a6, a7, a8]] = goalBoard := by
  have hm := validBoard_mem h
  set b := [[a0, a1, a2], [a3, a4, a5], [a6, a7, a8]] with hb
  have hn := cellDistance_nonneg b
  rw [manhattan_cells] at hz
  have r0 := (hm a0).1 (by simp)
  have r1 := (hm a1).1 (by simp)
  have r2 := (hm a2).1 (by simp)
  have r3 := (hm a3).1 (by simp)
  have r4 := (hm a4).1 (by simp)
  have r5 := (hm a5).1 (by simp)
  have r6 := (hm a6).1 (by simp)
  have r7 := (hm a7).1 (by simp)
  have r8 := (hm a8).1 (by simp)
  have z00 : cellDistance b 0 0 = 0 := by
    linarith [hn 0 0, hn 0 1, hn 0 2, hn 1 0, hn 1 1, hn 1 2, hn 2 0, hn 2 1, hn 2 2]
  have z01 : cellDistance b 0 1 = 0 := by
    linarith [hn 0 0, hn 0 1, hn 0 2, hn 1 0, hn 1 1, hn 1 2, hn 2 0, hn 2 1, hn 2 2]
  have z02 : cellDistance b 0 2 = 0 := by
    linarith [hn 0 0, hn 0 1, hn 0 2, hn 1 0, hn 1 1, hn 1 2, hn 2 0, hn 2 1, hn 2 2]
  have z10 : cellDistance b 1 0 = 0 := by
    linarith [hn 0 0, hn 0 1, hn 0 2, hn 1 0, hn 1 1, hn 1 2, hn 2 0, hn 2 1, hn 2 2]
  have z11 : cellDistance b 1 1 = 0 := by
    linarith [hn 0 0, hn 0 1, hn 0 2, hn 1 0, hn 1 1, hn 1 2, hn 2 0, hn 2 1, hn 2 2]
  have z12 : cellDistance b 1 2 = 0 := by
    linarith [hn 0 0, hn 0 1, hn 0 2, hn 1 0, hn 1 1, hn 1 2, hn 2 0, hn 2 1, hn 2 2]
  have z20 : cellDistance b 2 0 = 0 := by
    linarith [hn 0 0, hn 0 1, hn 0 2, hn 1 0, hn 1 1, hn 1 2, hn 2 0, hn 2 1, hn 2 2]
  have z21 : cellDistance b 2 1 = 0 := by
    linarith [hn 0 0, hn 0 1, hn 0 2, hn 1 0, hn 1 1, hn 1 2, hn 2 0, hn 2 1, hn 2 2]
  have z22 : cellDistance b 2 2 = 0 := by
    linarith [hn 0 0, hn 0 1, hn 0 2, hn 1 0, hn 1 1, hn 1 2, hn 2 0, hn 2 1, hn 2 2]
  rw [cellDistance_eq_zero_iff b _ _ (by decide) (by decide) (by simpa [hb, cell] using r0.1)
    (by simpa [hb, cell] using r0.2)] at z00
  rw [cellDistance_eq_zero_iff b _ _ (by decide) (by decide) (by simpa [hb, cell] using r1.1)
    (by simpa [hb, cell] using r1.2)] at z01
  rw [cellDistance_eq_zero_iff b _ _ (by decide) (by decide) (by simpa [hb, cell] using r2.1)
    (by simpa [hb, cell] using r2.2)] at z02
  rw [cellDistance_eq_zero_iff b _ _ (by decide) (by decide) (by simpa [hb, cell] using r3.1)
    (by simpa [hb, cell] using r3.2)] at z10
  rw [cellDistance_eq_zero_iff b _ _ (by decide) (by decide) (by simpa [hb, cell] using r4.1)
    (by simpa [hb, cell] using r4.2)] at z11
  rw [cellDistance_eq_zero_iff b _ _ (by decide) (by decide) (by simpa [hb, cell] using r5.1)
    (by simpa [hb, cell] using r5.2)] at z12
  rw [cellDistance_eq_zero_iff b _ _ (by decide) (by decide) (by simpa [hb, cell] using r6.1)
    (by simpa [hb, cell] using r6.2)] at z20
  rw [cellDistance_eq_zero_iff b _ _ (by decide) (by decide) (by simpa [hb, cell] using r7.1)
    (by simpa [hb, cell] using r7.2)] at z21
  rw [cellDistance_eq_zero_iff b _ _ (by decide) (by decide) (by simpa [hb, cell] using r8.1)
    (by simpa [hb, cell] using r8.2)] at z22
  simp only [hb, cell, List.getD_cons_zero, List.getD_cons_succ] at z00 z01 z02 z10 z11 z12 z20 z21 z22
  norm_num at z00 z01 z02 z10 z11 z12 z20 z21 z22
  have m1 := (hm 1).2 (by omega)
  have m2 := (hm 2).2 (by omega)
  have m3 := (hm 3).2 (by omega)
  have m4 := (hm 4).2 (by omega)
  have m5 := (hm 5).2 (by omega)
  have m6 := (hm 6).2 (by omega)
  have m7 := (hm 7).2 (by omega)
  have m8 := (hm 8).2 (by omega)
  clear hm hn hz
  have e8 : a8 = 0 := by rcases z22 with h | h <;> omega
  have e0 : a0 = 1 := by
    rcases m1 with h | h | h | h | h | h | h | h | h <;>
      first
      | exact h.symm
      | exact (tile_off z01 h (by decide) (by decide)).elim
      | exact (tile_off z02 h (by decide) (by decide)).elim
      | exact (tile_off z10 h (by decide) (by decide)).elim
      | exact (tile_off z11 h (by decide) (by decide)).elim
      | exact (tile_off z12 h (by decide) (by decide)).elim
      | exact (tile_off z20 h (by decide) (by decide)).elim
      | exact (tile_off z21 h (by decide) (by decide)).elim
      | exact (tile_off z22 h (by decide) (by decide)).elim
  have e1 : a1 = 2 := by
    rcases m2 with h | h | h | h | h | h | h | h | h <;>
      first
      | exact h.symm
      | exact (tile_off z00 h (by decide) (by decide)).elim
      | exact (tile_off z02 h (by decide) (by decide)).elim
      | exact (tile_off z10 h (by decide) (by decide)).elim
      | exact (tile_off z11 h (by decide) (by decide)).elim
      | exact (tile_off z12 h (by decide) (by decide)).elim
      | exact (tile_off z20 h (by decide) (by decide)).elim
      | exact (tile_off z21 h (by decide) (by decide)).elim
      | exact (tile_off z22 h (by decide) (by decide)).elim
  have e2 : a2 = 3 := by
    rcases m3 with h | h | h | h | h | h | h | h | h <;>
      first
      | exact h.symm
      | exact (tile_off z00 h (by decide) (by decide)).elim
      | exact (tile_off z01 h (by decide) (by decide)).elim
      | exact (tile_off z10 h (by decide) (by decide)).elim
      | exact (tile_off z11 h (by decide) (by decide)).elim
      | exact (tile_off z12 h (by decide) (by decide)).elim
      | exact (tile_off z20 h (by decide) (by decide)).elim
      | exact (tile_off z21 h (by decide) (by decide)).elim
      | exact (tile_off z22 h (by decide) (by decide)).elim
  have e3 : a3 = 4 := by
    rcases m4 with h | h | h | h | h | h | h | h | h <;>
      first
      | exact h.symm
      | exact (tile_off z00 h (by decide) (by decide)).elim
      | exact (tile_off z01 h (by decide) (by decide)).elim
      | exact (tile_off z02 h (by decide) (by decide)).elim
      | exact (tile_off z11 h (by decide) (by decide)).elim
      | exact (tile_off z12 h (by decide) (by decide)).elim
      | exact (tile_off z20 h (by decide) (by decide)).elim
      | exact (tile_off z21 h (by decide) (by decide)).elim
      | exact (tile_off z22 h (by decide) (by decide)).elim
  have e4 : a4 = 5 := by
    rcases m5 with h | h | h | h | h | h | h | h | h <;>
      first
      | exact h.symm
      | exact (tile_off z00 h (by decide) (by decide)).elim
      | exact (tile_off z01 h (by decide) (by decide)).elim
      | exact (tile_off z02 h (by decide) (by decide)).elim
      | exact (tile_off z10 h (by decide) (by decide)).elim
      | exact (tile_off z12 h (by decide) (by decide)).elim
      | exact (tile_off z20 h (by decide) (by decide)).elim
      | exact (tile_off z21 h (by decide) (by decide)).elim
      | exact (tile_off z22 h (by decide) (by decide)).elim
  have e5 : a5 = 6 := by
    rcases m6 with h | h | h | h | h | h | h | h | h <;>
      first
      | exact h.symm
      | exact (tile_off z00 h (by decide) (by decide)).elim
      | exact (tile_off z01 h (by decide) (by decide)).elim
      | exact (tile_off z02 h (by decide) (by decide)).elim
      | exact (tile_off z10 h (by decide) (by decide)).elim
      | exact (tile_off z11 h (by decide) (by decide)).elim
      | exact (tile_off z20 h (by decide) (by decide)).elim
      | exact (tile_off z21 h (by decide) (by decide)).elim
      | exact (tile_off z22 h (by decide) (by decide)).elim
  have e6 : a6 = 7 := by
    rcases m7 with h | h | h | h | h | h | h | h | h <;>
      first
      | exact h.symm
      | exact (tile_off z00 h (by decide) (by decide)).elim
      | exact (tile_off z01 h (by decide) (by decide)).elim
      | exact (tile_off z02 h (by decide) (by decide)).elim
      | exact (tile_off z10 h (by decide) (by decide)).elim
      | exact (tile_off z11 h (by decide) (by decide)).elim
      | exact (tile_off z12 h (by decide) (by decide)).elim
      | exact (tile_off z21 h (by decide) (by decide)).elim
      | exact (tile_off z22 h (by decide) (by decide)).elim
  have e7 : a7 = 8 := by
    rcases m8 with h | h | h | h | h | h | h | h | h <;>
      first
      | exact h.symm
      | exact (tile_off z00 h (by decide) (by decide)).elim
      | exact (tile_off z01 h (by decide) (by decide)).elim
      | exact (tile_off z02 h (by decide) (by decide)).elim
      | exact (tile_off z10 h (by decide) (by decide)).elim
      | exact (tile_off z11 h (by decide) (by decide)).elim
      | exact (tile_off z12 h (by decide) (by decide)).elim
      | exact (tile_off z20 h (by decide) (by decide)).elim
      | exact (tile_off z22 h (by decide) (by decide)).elim
  rw [hb, e0, e1, e2, e3, e4, e5, e6, e7, e8]; rfl

theorem cellDistance_spec (b : List (List Int)) (i j : Nat) (h : cell b i j = 0 ∨ 1 ≤ cell b i j) :
    cellDistance b i j =
      if cell b i j ≠ 0 then
        |(i : Int) - (cell b i j - 1) / 3| + |(j : Int) - (cell b i j - 1) % 3|
      else 0 := by
  unfold cellDistance
  split
  · have h1 : 0 ≤ cell b i j - 1 := by omega
    simp only [N, Nat.cast_ofNat]
    rw [Int.tdiv_eq_ediv h1 (by decide), Int.tmod_eq_emod h1 (by decide)]
  · rfl

/-- C1: on a valid board `isGoal` holds exactly when the computed heuristic is 0, and
exactly when the board is the goal board. -/
theorem C1_isGoal_iff_heuristic_zero (s : PuzzleState) (hv : validBoard s.board) :
    (isGoal s = true ↔ (calculateAndSetHeuristic s).heuristic = 0) ∧
    (isGoal s = true ↔ s.board = goalBoard) ∧
    ((calculateAndSetHeuristic s).heuristic = 0 ↔ s.board = goalBoard) := by
  obtain ⟨b, er, ec, h⟩ := s
  obtain ⟨a0, a1, a2, a3, a4, a5, a6, a7, a8, rfl⟩ := is3x3_rows hv.1
  have hg := isGoal_rows a0 a1 a2 a3 a4 a5 a6 a7 a8 er ec h
  have hz : manhattan [[a0, a1, a2], [a3, a4, a5], [a6, a7, a8]] = 0 ↔
      [[a0, a1, a2], [a3, a4, a5], [a6, a7, a8]] = goalBoard := by
    constructor
    · exact valid_zero_goal hv
    · intro e
      rw [e]
      decide
  simp only [calculateAndSetHeuristic]
  exact ⟨hg.trans hz.symm, hg, hz⟩

theorem C1_isGoal_iff_heuristic_zero_witness :
    validBoard [[1, 2, 3], [4, 0, 6], [7, 5, 8]] ∧
    ((isGoal ⟨[[1, 2, 3], [4, 0, 6], [7, 5, 8]], 1, 1, 2⟩ = true ↔
        (calculateAndSetHeuristic ⟨[[1, 2, 3], [4, 0, 6], [7, 5, 8]], 1, 1, 2⟩).heuristic = 0) ∧
     (isGoal ⟨[[1, 2, 3], [4, 0, 6], [7, 5, 8]], 1, 1, 2⟩ = true ↔
        [[1, 2, 3], [4, 0, 6], [7, 5, 8]] = goalBoard) ∧
     ((calculateAndSetHeuristic ⟨[[1, 2, 3], [4, 0, 6], [7, 5, 8]], 1, 1, 2⟩).heuristic = 0 ↔
        [[1, 2, 3], [4, 0, 6], [7, 5, 8]] = goalBoard)) :=
  ⟨⟨by decide, by decide⟩, C1_isGoal_iff_heuristic_zero _ ⟨by decide, by decide⟩⟩

theorem cell_range {b : List (List Int)} (hr : tilesInRange b) (i j : Nat) :
    0 ≤ cell b i j ∧ cell b i j ≤ 8 := by
  unfold cell
  by_cases hi : i < b.length
  · rw [List.getD_eq_getElem _ _ hi]
    by_cases hj : j < b[i].length
    · rw [List.getD_eq_getElem _ _ hj]
      exact hr _ (List.getElem_mem hi) _ (List.getElem_mem hj)
    · rw [List.getD_eq_default _ _ (by omega)]
      decide
  · have hrow : b.getD i [] = [] := List.getD_eq_default _ _ (by omega)
    rw [hrow]
    simp

theorem manhattanSpec_cells (b : List (List Int)) (hr : tilesInRange b) :
    manhattanSpec b =
      cellDistance b 0 0 + cellDistance b 0 1 + cellDistance b 0 2 +
      cellDistance b 1 0 + cellDistance b 1 1 + cellDistance b 1 2 +
      cellDistance b 2 0 + cellDistance b 2 1 + cellDistance b 2 2 := by
  have hc : ∀ i j, cell b i j = 0 ∨ 1 ≤ cell b i j := by
    intro i j
    have := cell_range hr i j
    omega
  simp only [cellDistance_spec b _ _ (hc _ _), manhattanSpec, Finset.sum_range_succ,
    Finset.sum_range_zero, zero_add, Nat.cast_zero, Nat.cast_one, Nat.cast_ofNat]
  ring

/-- C2: on a 3x3 board with entries in `0..8` the stored heuristic is the sum of the
Manhattan distances of the non-empty cells to their goal positions; it is never
negative, and it is 0 on the goal board. -/
theorem C2_heuristic_is_manhattan_sum (s : PuzzleState) (_h3 : is3x3 s.board)
    (hr : tilesInRange s.board) :
    (calculateAndSetHeuristic s).heuristic = manhattanSpec s.board ∧
    0 ≤ (calculateAndSetHeuristic s).heuristic ∧
    (calculateAndSetHeuristic { s with board := goalBoard }).heuristic = 0 := by
  refine ⟨?_, manhattan_nonneg _, by simp only [calculateAndSetHeuristic]; decide⟩
  simp only [calculateAndSetHeuristic]
  rw [manhattan_cells, manhattanSpec_cells _ hr]

theorem C2_heuristic_is_manhattan_sum_witness :
    is3x3 [[1, 2, 3], [4, 0, 6], [7, 5, 8]] ∧ tilesInRange [[1, 2, 3], [4, 0, 6], [7, 5, 8]] ∧
    ((calculateAndSetHeuristic ⟨[[1, 2, 3], [4, 0, 6], [7, 5, 8]], 1, 1, 0⟩).heuristic =
        manhattanSpec [[1, 2, 3], [4, 0, 6], [7, 5, 8]] ∧
     0 ≤ (calculateAndSetHeuristic ⟨[[1, 2, 3], [4, 0, 6], [7, 5, 8]], 1, 1, 0⟩).heuristic ∧
     (calculateAndSetHeuristic
        { (⟨[[1, 2, 3], [4, 0, 6], [7, 5, 8]], 1, 1, 0⟩ : PuzzleState) with
          board := goalBoard }).heuristic = 0) :=
  ⟨by decide, by decide, C2_heuristic_is_manhattan_sum _ (by decide) (by decide)⟩

/-! ## Move generation -/

theorem generateMovesRun_eq (s : PuzzleState) :
    generateMovesRun s = (s, (directions.filter (targetInGrid s)).map (successor s)) := by
  have key : ∀ (ds : List (Int × Int)) (acc : List PuzzleState),
      ds.foldl generateMovesBody (s, acc) =
        (s, acc ++ (ds.filter (targetInGrid s)).map (successor s)) := by
    intro ds
    induction ds with
    | nil => intro acc; simp
    | cons d ds ih =>
      intro acc
      rw [List.foldl_cons]
      by_cases hd : targetInGrid s d = true
      · have hb : generateMovesBody (s, acc) d = (s, acc ++ [successor s d]) := by
          have hd2 := hd
          simp only [targetInGrid, decide_eq_true_eq] at hd2
          simp only [generateMovesBody, successor]
          rw [if_pos hd2]
        rw [hb, ih, List.filter_cons_of_pos hd]
        simp
      · have hb : generateMovesBody (s, acc) d = (s, acc) := by
          have hd2 := hd
          simp only [targetInGrid, decide_eq_true_eq] at hd2
          simp only [generateMovesBody]
          rw [if_neg hd2]
        rw [hb, ih, List.filter_cons_of_neg hd]
  simpa [generateMovesRun] using key directions []

theorem generateMoves_eq (s : PuzzleState) :
    generateMoves s = (directions.filter (targetInGrid s)).map (successor s) := by
  simp [generateMoves, generateMovesRun_eq]

/-- C3: with the empty cell inside the grid, `generateMoves` returns one state per
direction whose target cell is inside the grid: between 1 and 4 states, 2 at a
corner, 3 on an edge that is not a corner, 4 at the centre. -/
theorem C3_generateMoves_count (s : PuzzleState) (h : emptyInGrid s) :
    generateMoves s = (directions.filter (targetInGrid s)).map (successor s) ∧
    1 ≤ (generateMoves s).length ∧ (generateMoves s).length ≤ 4 ∧
    (atCorner s → (generateMoves s).length = 2) ∧
    (atEdge s → (generateMoves s).length = 3) ∧
    (atCentre s → (generateMoves s).length = 4) := by
  refine ⟨generateMoves_eq s, ?_⟩
  rw [generateMoves_eq, List.length_map]
  obtain ⟨b, er, ec, hh⟩ := s
  obtain ⟨h1, h2, h3, h4⟩ := h
  simp only at h1 h2 h3 h4
  interval_cases er <;> interval_cases ec <;>
    simp [directions, targetInGrid, N, atCorner, atEdge, atCentre, emptyInGrid, List.filter]

theorem C3_generateMoves_count_witness :
    emptyInGrid ⟨[[1, 2, 3], [4, 0, 6], [7, 5, 8]], 1, 1, 2⟩ ∧
    (generateMoves ⟨[[1, 2, 3], [4, 0, 6], [7, 5, 8]], 1, 1, 2⟩ =
      (directions.filter (targetInGrid ⟨[[1, 2, 3], [4, 0, 6], [7, 5, 8]], 1, 1, 2⟩)).map
        (successor ⟨[[1, 2, 3], [4, 0, 6], [7, 5, 8]], 1, 1, 2⟩) ∧
    1 ≤ (generateMoves ⟨[[1, 2, 3], [4, 0, 6], [7, 5, 8]], 1, 1, 2⟩).length ∧
    (generateMoves ⟨[[1, 2, 3], [4, 0, 6], [7, 5, 8]], 1, 1, 2⟩).length ≤ 4 ∧
    (atCorner ⟨[[1, 2, 3], [4, 0, 6], [7, 5, 8]], 1, 1, 2⟩ →
      (generateMoves ⟨[[1, 2, 3], [4, 0, 6], [7, 5, 8]], 1, 1, 2⟩).length = 2) ∧
    (atEdge ⟨[[1, 2, 3], [4, 0, 6], [7, 5, 8]], 1, 1, 2⟩ →
      (generateMoves ⟨[[1, 2, 3], [4, 0, 6], [7, 5, 8]], 1, 1, 2⟩).length = 3) ∧
    (atCentre ⟨[[1, 2, 3], [4, 0, 6], [7, 5, 8]], 1, 1, 2⟩ →
      (generateMoves ⟨[[1, 2, 3], [4, 0, 6], [7, 5, 8]], 1, 1, 2⟩).length = 4)) :=
  ⟨by decide, C3_generateMoves_count _ (by decide)⟩

theorem mem_directions {d : Int × Int} (hd : d ∈ directions) :
    d = (-1, 0) ∨ d = (1, 0) ∨ d = (0, -1) ∨ d = (0, 1) := by
  simpa [directions] using hd

theorem toNat_two : Int.toNat 2 = 2 := rfl

set_option maxHeartbeats 1600000 in
/-- A successor of a valid state is a valid state. -/
theorem successor_valid (s : PuzzleState) (hv : Valid s) (d : Int × Int) (hd : d ∈ directions)
    (ht : targetInGrid s d = true) : Valid (successor s d) := by
  obtain ⟨b, er, ec, hh⟩ := s
  obtain ⟨⟨h3, hp⟩, ⟨h1, h2, h4, h5⟩, h0⟩ := hv
  obtain ⟨a0, a1, a2, a3, a4, a5, a6, a7, a8, rfl⟩ := is3x3_rows h3
  simp only at h1 h2 h4 h5 h0 hp
  have hperm : ∀ l : List Int, List.Perm l [a0, a1, a2, a3, a4, a5, a6, a7, a8] →
      List.Perm l [0, 1, 2, 3, 4, 5, 6, 7, 8] := fun l hl => hl.trans (by simpa using hp)
  rcases mem_directions hd with rfl | rfl | rfl | rfl <;>
    interval_cases er <;> interval_cases ec <;>
    first
    | (exfalso; revert ht; simp [targetInGrid, N]; done)
    | (simp only [cell, toNat_two, Int.toNat_zero, Int.toNat_one, List.getD_cons_zero,
        List.getD_cons_succ] at h0
       refine ⟨⟨by simp [successor, swapTiles, setCell, cell, calculateAndSetHeuristic, is3x3], ?_⟩,
         by simp [successor, swapTiles, calculateAndSetHeuristic, emptyInGrid],
         by simp [successor, swapTiles, setCell, cell, calculateAndSetHeuristic, h0]⟩
       simp only [successor, swapTiles, setCell, cell, calculateAndSetHeuristic]
       apply hperm
       apply List.perm_iff_count.2
       intro x
       simp [List.count_cons]
       try omega)

theorem setCell_length (b : List (List Int)) (i j : Nat) (v : Int) :
    (setCell b i j v).length = b.length := by
  simp [setCell]

theorem is3x3_setCell {b : List (List Int)} (h : is3x3 b) (i j : Nat) (v : Int) :
    is3x3 (setCell b i j v) := by
  refine ⟨by rw [setCell_length]; exact h.1, ?_⟩
  intro row hrow
  rcases List.mem_or_eq_of_mem_set hrow with hm | rfl
  · exact h.2 row hm
  · rw [List.length_set]
    by_cases hi : i < b.length
    · rw [List.getD_eq_getElem _ _ hi]
      exact h.2 _ (List.getElem_mem hi)
    · exfalso
      unfold setCell at hrow
      rw [List.set_eq_of_length_le (by omega)] at hrow
      have := h.2 _ hrow
      rw [List.length_set, List.getD_eq_default _ _ (by omega)] at this
      simp at this

theorem cell_setCell {b : List (List Int)} (h : is3x3 b) (i j : Nat) (hi : i < 3) (hj : j < 3)
    (v : Int) (i2 j2 : Nat) :
    cell (setCell b i j v) i2 j2 = if i2 = i ∧ j2 = j then v else cell b i2 j2 := by
  obtain ⟨a0, a1, a2, a3, a4, a5, a6, a7, a8, rfl⟩ := is3x3_rows h
  interval_cases i <;> interval_cases j <;>
    rcases i2 with _ | _ | _ | i2 <;> rcases j2 with _ | _ | _ | j2 <;>
    simp [cell, setCell]

theorem validBoard_tilesInRange {b : List (List Int)} (h : validBoard b) : tilesInRange b := by
  intro row hrow v hv
  have hm : v ∈ b.flatten := List.mem_flatten.2 ⟨row, hrow, hv⟩
  have := h.2.mem_iff.1 hm
  simp only [List.mem_cons, List.mem_singleton, List.not_mem_nil, or_false] at this
  omega

/-- C4: every state returned by `generateMoves` on a valid state has the board of the
state with the empty cell and the neighbour in that direction exchanged and the
other cells untouched, the neighbour as its empty cell, and the Manhattan sum of its
own board as heuristic; the states come in the order up, down, left, right, and the
state the method is called on is not changed. -/
theorem C4_successor_is_swap (s : PuzzleState) (hv : Valid s) :
    (generateMovesRun s).1 = s ∧
    generateMoves s =
      ([(-1, 0), (1, 0), (0, -1), (0, 1)].filter (targetInGrid s)).map (successor s) ∧
    ∀ d ∈ directions, targetInGrid s d = true →
      is3x3 (successor s d).board ∧
      (successor s d).emptyRow = s.emptyRow + d.1 ∧
      (successor s d).emptyCol = s.emptyCol + d.2 ∧
      (∀ i j : Nat, i < 3 → j < 3 →
        cell (successor s d).board i j =
          if (i : Int) = s.emptyRow ∧ (j : Int) = s.emptyCol then
            cell s.board (s.emptyRow + d.1).toNat (s.emptyCol + d.2).toNat
          else if (i : Int) = s.emptyRow + d.1 ∧ (j : Int) = s.emptyCol + d.2 then
            cell s.board s.emptyRow.toNat s.emptyCol.toNat
          else cell s.board i j) ∧
      (successor s d).heuristic = manhattanSpec (successor s d).board := by
  refine ⟨by rw [generateMovesRun_eq], generateMoves_eq s, ?_⟩
  intro d hd ht
  have hsv := successor_valid s hv d hd ht
  refine ⟨hsv.1.1, rfl, rfl, ?_, ?_⟩
  · intro i j hi hj
    obtain ⟨h1, h2, h3, h4⟩ := hv.2.1
    have ht2 := ht
    simp only [targetInGrid, decide_eq_true_eq, N] at ht2
    have hne : d.1 ≠ 0 ∨ d.2 ≠ 0 := by
      rcases mem_directions hd with rfl | rfl | rfl | rfl <;> simp
    simp only [successor, swapTiles, calculateAndSetHeuristic]
    rw [cell_setCell (is3x3_setCell hv.1.1 _ _ _) _ _ (by omega) (by omega),
      cell_setCell hv.1.1 _ _ (by omega) (by omega)]
    by_cases c1 : (i : Int) = s.emptyRow ∧ (j : Int) = s.emptyCol
    · rw [if_pos c1, if_neg (by omega), if_pos (by omega)]
    · rw [if_neg c1]
      by_cases c2 : (i : Int) = s.emptyRow + d.1 ∧ (j : Int) = s.emptyCol + d.2
      · rw [if_pos c2, if_pos (by omega)]
      · rw [if_neg c2, if_neg (by omega), if_neg (by omega)]
  · have hr := validBoard_tilesInRange hsv.1
    rw [manhattanSpec_cells _ hr, ← manhattan_cells]
    rfl

theorem C4_successor_is_swap_witness :
    Valid mainState ∧
    (generateMovesRun mainState).1 = mainState ∧
    generateMoves mainState =
      ([(-1, 0), (1, 0), (0, -1), (0, 1)].filter (targetInGrid mainState)).map
        (successor mainState) ∧
    is3x3 (successor mainState (1, 0)).board ∧
    (successor mainState (1, 0)).emptyRow = mainState.emptyRow + 1 ∧
    (successor mainState (1, 0)).emptyCol = mainState.emptyCol + 0 ∧
    cell (successor mainState (1, 0)).board 2 1 =
      (if ((2 : Nat) : Int) = mainState.emptyRow ∧ ((1 : Nat) : Int) = mainState.emptyCol then
        cell mainState.board (mainState.emptyRow + 1).toNat (mainState.emptyCol + 0).toNat
      else if ((2 : Nat) : Int) = mainState.emptyRow + 1 ∧
          ((1 : Nat) : Int) = mainState.emptyCol + 0 then
        cell mainState.board mainState.emptyRow.toNat mainState.emptyCol.toNat
      else cell mainState.board 2 1) ∧
    (successor mainState (1, 0)).heuristic = manhattanSpec (successor mainState (1, 0)).board :=
  have h := C4_successor_is_swap mainState (by decide)
  have hd := h.2.2 (1, 0) (by decide) (by decide)
  ⟨by decide, h.1, h.2.1, hd.1, hd.2.1, hd.2.2.1, hd.2.2.2.1 2 1 (by decide) (by decide),
    hd.2.2.2.2⟩

/-! ## The sort and one pass of the loop -/

theorem sort_mem {sortMoves : List PuzzleState → List PuzzleState} (hs : SortContract sortMoves)
    (l : List PuzzleState) (x : PuzzleState) : x ∈ sortMoves l ↔ x ∈ l :=
  (hs l).1.mem_iff

theorem sort_head_le {sortMoves : List PuzzleState → List PuzzleState}
    (hs : SortContract sortMoves) {l : List PuzzleState} {m0 : PuzzleState}
    {rest : List PuzzleState} (h : sortMoves l = m0 :: rest) :
    m0 ∈ l ∧ ∀ x ∈ l, m0.heuristic ≤ x.heuristic := by
  have hp := (hs l).2
  rw [h] at hp
  have hm : ∀ x, x ∈ l ↔ x ∈ m0 :: rest := fun x => by rw [← h]; exact (sort_mem hs l x).symm
  refine ⟨(hm m0).2 (List.mem_cons_self _ _), ?_⟩
  intro x hx
  rcases List.mem_cons.1 ((hm x).1 hx) with rfl | hx2
  · exact le_refl _
  · exact (List.pairwise_cons.1 hp).1 x hx2

theorem getD_mem_cons (m0 : PuzzleState) (rest : List PuzzleState) (r : Nat) :
    (m0 :: rest).getD (r % (m0 :: rest).length) m0 ∈ m0 :: rest := by
  have hlt : r % (m0 :: rest).length < (m0 :: rest).length :=
    Nat.mod_lt _ (by simp)
  rw [List.getD_eq_getElem _ _ hlt]
  exact List.getElem_mem hlt

/-- What a completed pass of the loop does to the variables of the driver. -/
theorem loopBody_next {sortMoves : List PuzzleState → List PuzzleState}
    (hs : SortContract sortMoves) (rand : Nat → Nat) {d d1 : Driver}
    (h : loopBody sortMoves rand d = Step.next d1) :
    isGoal d.currentState = false ∧
    d1.currentState ∈ unvisited d.visitedStates (generateMoves d.currentState) ∧
    d1.visitedStates = List.insert (toString d1.currentState) d.visitedStates ∧
    d1.output = d.output ++ [(d.currentState.heuristic, d.currentState.board)] ∧
    ((d1.currentState.heuristic < d.currentState.heuristic ∧ d1.sideSteps = 0 ∧
        d1.randCalls = d.randCalls) ∨
      (d.currentState.heuristic ≤ d1.currentState.heuristic ∧ d.sideSteps < MAX_SIDE_STEPS ∧
        d1.sideSteps = d.sideSteps + 1 ∧ d1.randCalls = d.randCalls + 1 ∧
        ∀ x ∈ unvisited d.visitedStates (generateMoves d.currentState),
          d.currentState.heuristic ≤ x.heuristic)) := by
  unfold loopBody at h
  by_cases hg : isGoal d.currentState = true
  · rw [if_pos hg] at h
    exact absurd h (by simp)
  rw [if_neg hg] at h
  simp only at h
  cases hm : sortMoves (unvisited d.visitedStates (generateMoves d.currentState)) with
  | nil =>
    rw [hm] at h
    exact absurd h (by simp)
  | cons m0 rest =>
    rw [hm] at h
    simp only at h
    have hh := sort_head_le hs hm
    by_cases hlt : m0.heuristic < d.currentState.heuristic
    · rw [if_pos hlt] at h
      injection h with h
      subst h
      exact ⟨by simpa using hg, hh.1, rfl, rfl, Or.inl ⟨hlt, rfl, rfl⟩⟩
    · rw [if_neg hlt] at h
      by_cases hss : d.sideSteps < MAX_SIDE_STEPS
      · rw [if_pos hss] at h
        injection h with h
        subst h
        have hmem := getD_mem_cons m0 rest (rand d.randCalls)
        have hmem2 : (m0 :: rest).getD (rand d.randCalls % (m0 :: rest).length) m0 ∈
            unvisited d.visitedStates (generateMoves d.currentState) := by
          apply (sort_mem hs _ _).1
          rw [hm]
          exact hmem
        have hge : ∀ x ∈ unvisited d.visitedStates (generateMoves d.currentState),
            d.currentState.heuristic ≤ x.heuristic := fun x hx =>
          le_trans (not_lt.1 hlt) (hh.2 x hx)
        exact ⟨by simpa using hg, hmem2, rfl, rfl, Or.inr ⟨hge _ hmem2, hss, rfl, rfl, hge⟩⟩
      · rw [if_neg hss] at h
        exact absurd h (by simp)

theorem insertMove_perm (a : PuzzleState) (l : List PuzzleState) :
    List.Perm (insertMove a l) (a :: l) := by
  induction l with
  | nil => exact List.Perm.refl _
  | cons b l ih =>
    unfold insertMove
    split
    · exact List.Perm.refl _
    · exact (List.Perm.cons b ih).trans (List.Perm.swap a b l)

theorem insertMove_pairwise (a : PuzzleState) (l : List PuzzleState)
    (hl : List.Pairwise (fun x y : PuzzleState => x.heuristic ≤ y.heuristic) l) :
    List.Pairwise (fun x y : PuzzleState => x.heuristic ≤ y.heuristic) (insertMove a l) := by
  induction l with
  | nil => simp [insertMove]
  | cons b l ih =>
    unfold insertMove
    have hb := List.pairwise_cons.1 hl
    split
    · rename_i hle
      refine List.pairwise_cons.2 ⟨?_, hl⟩
      intro x hx
      rcases List.mem_cons.1 hx with rfl | hx2
      · exact hle
      · exact le_trans hle (hb.1 x hx2)
    · rename_i hle
      refine List.pairwise_cons.2 ⟨?_, ih hb.2⟩
      intro x hx
      rcases List.mem_cons.1 ((insertMove_perm a l).mem_iff.1 hx) with rfl | hx2
      · exact le_of_lt (not_le.1 hle)
      · exact hb.1 x hx2

/-- The insertion sort keeps the promise of `std::sort`. -/
theorem insertionSortMoves_contract : SortContract insertionSortMoves := by
  intro l
  induction l with
  | nil => exact ⟨List.Perm.refl _, List.Pairwise.nil⟩
  | cons a l ih =>
    refine ⟨?_, ?_⟩
    · exact (insertMove_perm a _).trans (List.Perm.cons a ih.1)
    · exact insertMove_pairwise a _ ih.2

/-- A pass that leaves the loop keeps the current state, the visited set and the
counter. -/
theorem loopBody_stop (sortMoves : List PuzzleState → List PuzzleState) (rand : Nat → Nat)
    {d d1 : Driver}
    (h : loopBody sortMoves rand d = Step.solved d1 ∨ loopBody sortMoves rand d = Step.noMoves d1 ∨
      loopBody sortMoves rand d = Step.limitReached d1) :
    d1.currentState = d.currentState ∧ d1.visitedStates = d.visitedStates ∧
      d1.sideSteps = d.sideSteps ∧ d1.randCalls = d.randCalls := by
  unfold loopBody at h
  by_cases hg : isGoal d.currentState = true
  · simp only [if_pos hg] at h
    rcases h with h | h | h
    · injection h with h; subst h; exact ⟨rfl, rfl, rfl, rfl⟩
    · exact absurd h (by simp)
    · exact absurd h (by simp)
  · simp only [if_neg hg] at h
    cases hm : sortMoves (unvisited d.visitedStates (generateMoves d.currentState)) with
    | nil =>
      simp only [hm] at h
      rcases h with h | h | h
      · exact absurd h (by simp)
      · injection h with h; subst h; exact ⟨rfl, rfl, rfl, rfl⟩
      · exact absurd h (by simp)
    | cons m0 rest =>
      simp only [hm] at h
      by_cases hlt : m0.heuristic < d.currentState.heuristic
      · simp only [if_pos hlt] at h
        rcases h with h | h | h <;> exact absurd h (by simp)
      · simp only [if_neg hlt] at h
        by_cases hss : d.sideSteps < MAX_SIDE_STEPS
        · simp only [if_pos hss] at h
          rcases h with h | h | h <;> exact absurd h (by simp)
        · simp only [if_neg hss] at h
          rcases h with h | h | h
          · exact absurd h (by simp)
          · exact absurd h (by simp)
          · injection h with h; subst h; exact ⟨rfl, rfl, rfl, rfl⟩

/-! ## The invariant and termination -/

theorem toString_eq_flatKey (s : PuzzleState) : toString s = flatKey s.board.flatten := by
  unfold toString flatKey
  rw [List.foldl_flatten]

theorem permKeys_length : permKeys.length = keyBound := by
  unfold permKeys keyBound
  rw [List.length_map, List.length_permutations]
  rfl

theorem valid_key_mem {s : PuzzleState} (hv : Valid s) : toString s ∈ permKeys := by
  rw [toString_eq_flatKey]
  exact List.mem_map.2 ⟨_, List.mem_permutations.2 hv.1.2, rfl⟩

theorem generateMoves_valid {s : PuzzleState} (hv : Valid s) {t : PuzzleState}
    (ht : t ∈ generateMoves s) : Valid t := by
  rw [generateMoves_eq] at ht
  obtain ⟨d, hd, rfl⟩ := List.mem_map.1 ht
  have hd2 := List.mem_filter.1 hd
  exact successor_valid s hv d hd2.1 hd2.2

theorem mem_unvisited {visited : List (List Char)} {moves : List PuzzleState} {t : PuzzleState} :
    t ∈ unvisited visited moves ↔ t ∈ moves ∧ toString t ∉ visited := by
  simp [unvisited, List.mem_filter]

theorem initDriver_inv {s : PuzzleState} (hv : Valid s) : DriverInv (initDriver s) := by
  refine ⟨hv, ?_, ?_, ?_⟩ <;> simp [initDriver, valid_key_mem hv]

theorem inv_next {sortMoves : List PuzzleState → List PuzzleState} (hs : SortContract sortMoves)
    (rand : Nat → Nat) {d d1 : Driver} (hi : DriverInv d)
    (h : loopBody sortMoves rand d = Step.next d1) :
    DriverInv d1 ∧ d1.visitedStates.length = d.visitedStates.length + 1 := by
  obtain ⟨_, hmem, hvis, _, _⟩ := loopBody_next hs rand h
  obtain ⟨hm1, hm2⟩ := mem_unvisited.1 hmem
  have hv1 := generateMoves_valid hi.1 hm1
  rw [List.insert_of_not_mem hm2] at hvis
  refine ⟨⟨hv1, ?_, ?_, ?_⟩, ?_⟩
  · intro k hk
    rw [hvis] at hk
    rcases List.mem_cons.1 hk with rfl | hk2
    · exact valid_key_mem hv1
    · exact hi.2.1 k hk2
  · rw [hvis]
    exact List.nodup_cons.2 ⟨hm2, hi.2.2.1⟩
  · rw [hvis]
    exact List.mem_cons_self _ _
  · rw [hvis]
    rfl

theorem inv_length_le {d : Driver} (hi : DriverInv d) : d.visitedStates.length ≤ keyBound := by
  rw [← permKeys_length]
  exact (hi.2.2.1.subperm (fun k hk => hi.2.1 k hk)).length_le

/-- From a state that satisfies the invariant the loop is left before the fuel
`keyBound - size of the visited set + 1` is used up. -/
theorem hillClimbLoop_terminates {sortMoves : List PuzzleState → List PuzzleState}
    (hs : SortContract sortMoves) (rand : Nat → Nat) :
    ∀ (fuel : Nat) (d : Driver), DriverInv d → keyBound - d.visitedStates.length < fuel →
      ∃ r, hillClimbLoop sortMoves rand fuel d = some r ∧ DriverInv r := by
  intro fuel
  induction fuel with
  | zero => intro d _ h; exact absurd h (Nat.not_lt_zero _)
  | succ fuel ih =>
    intro d hi hlt
    unfold hillClimbLoop
    cases hb : loopBody sortMoves rand d with
    | next d1 =>
      obtain ⟨hi1, hlen⟩ := inv_next hs rand hi hb
      have hle := inv_length_le hi1
      exact ih d1 hi1 (by omega)
    | solved d1 =>
      obtain ⟨e1, e2, _, _⟩ := loopBody_stop sortMoves rand (Or.inl hb)
      exact ⟨d1, rfl, by unfold DriverInv; rw [e1, e2]; exact hi⟩
    | noMoves d1 =>
      obtain ⟨e1, e2, _, _⟩ := loopBody_stop sortMoves rand (Or.inr (Or.inl hb))
      exact ⟨d1, rfl, by unfold DriverInv; rw [e1, e2]; exact hi⟩
    | limitReached d1 =>
      obtain ⟨e1, e2, _, _⟩ := loopBody_stop sortMoves rand (Or.inr (Or.inr hb))
      exact ⟨d1, rfl, by unfold DriverInv; rw [e1, e2]; exact hi⟩

/-- More fuel does not change a result. -/
theorem hillClimbLoop_mono (sortMoves : List PuzzleState → List PuzzleState) (rand : Nat → Nat) :
    ∀ (fuel : Nat) (d r : Driver), hillClimbLoop sortMoves rand fuel d = some r →
      ∀ extra, hillClimbLoop sortMoves rand (fuel + extra) d = some r := by
  intro fuel
  induction fuel with
  | zero => intro d r h; exact absurd h (by simp [hillClimbLoop])
  | succ fuel ih =>
    intro d r h extra
    rw [Nat.add_right_comm]
    unfold hillClimbLoop at h ⊢
    cases hb : loopBody sortMoves rand d with
    | next d1 =>
      rw [hb] at h
      exact ih d1 r h extra
    | solved d1 => rw [hb] at h; exact h
    | noMoves d1 => rw [hb] at h; exact h
    | limitReached d1 => rw [hb] at h; exact h

theorem afterPasses_inv {sortMoves : List PuzzleState → List PuzzleState}
    (hs : SortContract sortMoves) (rand : Nat → Nat) :
    ∀ (k : Nat) (d dk : Driver), DriverInv d → afterPasses sortMoves rand k d = some dk →
      DriverInv dk ∧ dk.visitedStates.length = d.visitedStates.length + k := by
  intro k
  induction k with
  | zero =>
    intro d dk hi h
    simp only [afterPasses, Option.some.injEq] at h
    subst h
    exact ⟨hi, rfl⟩
  | succ k ih =>
    intro d dk hi h
    unfold afterPasses at h
    cases hb : loopBody sortMoves rand d with
    | next d1 =>
      rw [hb] at h
      obtain ⟨hi1, hlen⟩ := inv_next hs rand hi hb
      obtain ⟨hik, hlenk⟩ := ih d1 dk hi1 h
      exact ⟨hik, by omega⟩
    | solved d1 => rw [hb] at h; exact absurd h (by simp)
    | noMoves d1 => rw [hb] at h; exact absurd h (by simp)
    | limitReached d1 => rw [hb] at h; exact absurd h (by simp)

theorem hillClimb_returns {sortMoves : List PuzzleState → List PuzzleState}
    (hs : SortContract sortMoves) (rand : Nat → Nat) {s : PuzzleState} (hv : Valid s) :
    ∃ r, hillClimbLoop sortMoves rand keyBound (initDriver s) = some r ∧ DriverInv r := by
  apply hillClimbLoop_terminates hs rand keyBound (initDriver s) (initDriver_inv hv)
  simp [initDriver, keyBound]

theorem hillClimbLoop_fuel_irrelevant (sortMoves : List PuzzleState → List PuzzleState)
    (rand : Nat → Nat) {f1 f2 : Nat} {d r1 r2 : Driver}
    (h1 : hillClimbLoop sortMoves rand f1 d = some r1)
    (h2 : hillClimbLoop sortMoves rand f2 d = some r2) : r1 = r2 := by
  have e1 := hillClimbLoop_mono sortMoves rand f1 d r1 h1 f2
  have e2 := hillClimbLoop_mono sortMoves rand f2 d r2 h2 f1
  rw [Nat.add_comm] at e2
  rw [e1] at e2
  exact Option.some.inj e2

/-- C5: validity is kept by move generation and by the driver: every successor of a
valid state is valid, every current state of the driver started on a valid state
is valid, and the driver returns a valid state. -/
theorem C5_validity_invariant (sortMoves : List PuzzleState → List PuzzleState)
    (hs : SortContract sortMoves) (rand : Nat → Nat) (s : PuzzleState) (hv : Valid s) :
    (∀ t ∈ generateMoves s, Valid t) ∧
    (∀ k d, afterPasses sortMoves rand k (initDriver s) = some d → Valid d.currentState) ∧
    (∃ r, hillClimbWithSideStepping sortMoves rand keyBound s = some r ∧ Valid r) ∧
    (∀ fuel r, hillClimbWithSideStepping sortMoves rand fuel s = some r → Valid r) := by
  obtain ⟨r0, hr0, hi0⟩ := hillClimb_returns hs rand hv
  refine ⟨fun t ht => generateMoves_valid hv ht, ?_, ?_, ?_⟩
  · intro k d hk
    exact (afterPasses_inv hs rand k _ d (initDriver_inv hv) hk).1.1
  · exact ⟨r0.currentState, by simp [hillClimbWithSideStepping, hr0], hi0.1⟩
  · intro fuel r hr
    unfold hillClimbWithSideStepping at hr
    obtain ⟨r1, hr1, rfl⟩ := Option.map_eq_some'.1 hr
    rw [hillClimbLoop_fuel_irrelevant sortMoves rand hr1 hr0]
    exact hi0.1

theorem C5_validity_invariant_witness :
    SortContract insertionSortMoves ∧ Valid mainState ∧
    (∀ t ∈ generateMoves mainState, Valid t) ∧
    (∀ k d, afterPasses insertionSortMoves (fun _ => 0) k (initDriver mainState) = some d →
      Valid d.currentState) ∧
    (∃ r, hillClimbWithSideStepping insertionSortMoves (fun _ => 0) keyBound mainState = some r ∧
      Valid r) ∧
    (∀ fuel r, hillClimbWithSideStepping insertionSortMoves (fun _ => 0) fuel mainState = some r →
      Valid r) :=
  ⟨insertionSortMoves_contract, by decide,
    C5_validity_invariant insertionSortMoves insertionSortMoves_contract (fun _ => 0) mainState
      (by decide)⟩

/-! ## Keys are injective -/

theorem charDigit_digitChar (d : Nat) (hd : d < 10) : charDigit (digitChar d) = d := by
  interval_cases d <;> decide

theorem digitChar_ne_comma (d : Nat) (hd : d < 10) : digitChar d ≠ ',' ∧ digitChar d ≠ '-' := by
  interval_cases d <;> decide

theorem natDigitsAux_eq : ∀ (fuel n : Nat) (acc : List Char), 0 < n → n < fuel →
    natDigitsAux fuel n acc = ((Nat.digits 10 n).reverse.map digitChar) ++ acc := by
  intro fuel
  induction fuel with
  | zero => intro n acc _ h; exact absurd h (Nat.not_lt_zero _)
  | succ fuel ih =>
    intro n acc hn hlt
    rw [Nat.digits_def' (by decide) hn]
    unfold natDigitsAux
    by_cases h0 : n / 10 = 0
    · rw [if_pos h0, h0]
      simp
    · rw [if_neg h0, ih (n / 10) _ (by omega) (by omega)]
      simp

theorem natToString_pos (n : Nat) (hn : 0 < n) :
    natToString n = (Nat.digits 10 n).reverse.map digitChar := by
  unfold natToString
  rw [natDigitsAux_eq (n + 1) n [] hn (by omega)]
  simp

theorem natToString_zero : natToString 0 = [digitChar 0] := by
  decide

theorem natToString_digits (n : Nat) :
    ∃ ds : List Nat, (∀ d ∈ ds, d < 10) ∧ natToString n = ds.map digitChar ∧
      Nat.ofDigits 10 ds.reverse = n := by
  rcases Nat.eq_zero_or_pos n with rfl | hn
  · exact ⟨[0], by simp, natToString_zero, by simp⟩
  · refine ⟨(Nat.digits 10 n).reverse, ?_, natToString_pos n hn, ?_⟩
    · intro d hd
      exact Nat.digits_lt_base (by decide) (List.mem_reverse.1 hd)
    · rw [List.reverse_reverse, Nat.ofDigits_digits]

/-- Reading the decimal representation back gives the number. -/
theorem natOfString_natToString (n : Nat) : natOfString (natToString n) = n := by
  obtain ⟨ds, hlt, hs, hof⟩ := natToString_digits n
  unfold natOfString
  rw [hs, List.map_map]
  have : ds.map (charDigit ∘ digitChar) = ds := by
    conv_rhs => rw [← List.map_id ds]
    apply List.map_congr_left
    intro d hd
    exact charDigit_digitChar d (hlt d hd)
  rw [this, hof]

theorem natToString_injective {n m : Nat} (h : natToString n = natToString m) : n = m := by
  rw [← natOfString_natToString n, ← natOfString_natToString m, h]

theorem natToString_chars (n : Nat) : ',' ∉ natToString n ∧ '-' ∉ natToString n := by
  obtain ⟨ds, hlt, hs, _⟩ := natToString_digits n
  rw [hs]
  constructor
  · intro hc
    obtain ⟨d, hd, he⟩ := List.mem_map.1 hc
    exact (digitChar_ne_comma d (hlt d hd)).1 he
  · intro hc
    obtain ⟨d, hd, he⟩ := List.mem_map.1 hc
    exact (digitChar_ne_comma d (hlt d hd)).2 he

theorem to_string_no_comma (v : Int) : ',' ∉ to_string v := by
  unfold to_string
  split
  · intro hc
    rcases List.mem_cons.1 hc with h | h
    · exact absurd h (by decide)
    · exact (natToString_chars _).1 h
  · exact (natToString_chars _).1

theorem to_string_injective {v w : Int} (h : to_string v = to_string w) : v = w := by
  unfold to_string at h
  by_cases hv : v < 0 <;> by_cases hw : w < 0
  · rw [if_pos hv, if_pos hw] at h
    have := natToString_injective (List.cons.inj h).2
    omega
  · rw [if_pos hv, if_neg hw] at h
    exact absurd (h ▸ List.mem_cons_self _ _) (natToString_chars _).2
  · rw [if_neg hv, if_pos hw] at h
    exact absurd (h ▸ List.mem_cons_self _ _) (natToString_chars _).2
  · rw [if_neg hv, if_neg hw] at h
    have := natToString_injective h
    omega

theorem append_comma_inj : ∀ (x y r1 r2 : List Char), ',' ∉ x → ',' ∉ y →
    x ++ ',' :: r1 = y ++ ',' :: r2 → x = y ∧ r1 = r2 := by
  intro x
  induction x with
  | nil =>
    intro y r1 r2 _ hy h
    cases y with
    | nil => exact ⟨rfl, (List.cons.inj h).2⟩
    | cons c y =>
      have hc := (List.cons.inj h).1
      exact absurd (hc ▸ List.mem_cons_self _ _) hy
  | cons a x ih =>
    intro y r1 r2 hx hy h
    cases y with
    | nil =>
      have hc := (List.cons.inj h).1
      exact absurd (hc ▸ List.mem_cons_self _ _) hx
    | cons c y =>
      obtain ⟨e1, e2⟩ := List.cons.inj h
      obtain ⟨e3, e4⟩ := ih y r1 r2 (fun hm => hx (List.mem_cons_of_mem _ hm))
        (fun hm => hy (List.mem_cons_of_mem _ hm)) e2
      exact ⟨by rw [e1, e3], e4⟩

theorem flatKey_cons (a : Int) (l : List Int) :
    flatKey (a :: l) = to_string a ++ ',' :: flatKey l := by
  have key : ∀ (l : List Int) (acc : List Char),
      l.foldl (fun state tile => state ++ (to_string tile ++ [','])) acc =
        acc ++ l.foldl (fun state tile => state ++ (to_string tile ++ [','])) [] := by
    intro l
    induction l with
    | nil => intro acc; simp
    | cons b l ih =>
      intro acc
      rw [List.foldl_cons, ih, List.foldl_cons, ih ([] ++ _)]
      simp
  unfold flatKey
  rw [List.foldl_cons, key]
  simp

theorem flatKey_injective : ∀ (l m : List Int), flatKey l = flatKey m → l = m := by
  intro l
  induction l with
  | nil =>
    intro m h
    cases m with
    | nil => rfl
    | cons b m =>
      rw [flatKey_cons] at h
      exact absurd h (by simp [flatKey])
  | cons a l ih =>
    intro m h
    cases m with
    | nil =>
      rw [flatKey_cons] at h
      exact absurd h (by simp [flatKey])
    | cons b m =>
      rw [flatKey_cons, flatKey_cons] at h
      obtain ⟨e1, e2⟩ := append_comma_inj _ _ _ _ (to_string_no_comma a) (to_string_no_comma b) h
      rw [to_string_injective e1, ih m e2]

theorem flatten_3x3_injective {b c : List (List Int)} (hb : is3x3 b) (hc : is3x3 c)
    (h : b.flatten = c.flatten) : b = c := by
  obtain ⟨a0, a1, a2, a3, a4, a5, a6, a7, a8, rfl⟩ := is3x3_rows hb
  obtain ⟨c0, c1, c2, c3, c4, c5, c6, c7, c8, rfl⟩ := is3x3_rows hc
  simp at h
  simp [h]

/-- C6: on 3x3 boards two states have the same key exactly when their boards are
equal; the empty coordinates and the heuristic do not enter the key. -/
theorem C6_toString_injective (s t : PuzzleState) (hs : is3x3 s.board) (ht : is3x3 t.board) :
    (toString s = toString t ↔ s.board = t.board) ∧
    (∀ er ec h, toString { s with emptyRow := er, emptyCol := ec, heuristic := h } = toString s) := by
  refine ⟨⟨?_, ?_⟩, fun _ _ _ => rfl⟩
  · intro h
    rw [toString_eq_flatKey, toString_eq_flatKey] at h
    exact flatten_3x3_injective hs ht (flatKey_injective _ _ h)
  · intro h
    unfold toString
    rw [h]

theorem C6_toString_injective_witness :
    is3x3 mainState.board ∧ is3x3 goalBoard ∧
    (toString mainState = toString ⟨goalBoard, 1, 1, 2⟩ ↔ mainState.board = goalBoard) ∧
    (∀ er ec h,
      toString { mainState with emptyRow := er, emptyCol := ec, heuristic := h } =
        toString mainState) :=
  ⟨by decide, by decide, C6_toString_injective mainState ⟨goalBoard, 1, 1, 2⟩ (by decide) (by decide)⟩

/-! ## Termination of the driver -/

/-- C7: on a valid initial state the loop of the driver is left for every random
sequence: a pass that does not leave the loop moves to a state whose key was not
in the visited set, the visited keys are keys of arrangements of the nine tiles,
of which there are at most `9!`, and so fewer than `9!` transitions are made. -/
theorem C7_driver_terminates (sortMoves : List PuzzleState → List PuzzleState)
    (hs : SortContract sortMoves) (rand : Nat → Nat) (s : PuzzleState) (hv : Valid s) :
    (∃ r, hillClimbWithSideStepping sortMoves rand keyBound s = some r) ∧
    (∀ fuel, keyBound ≤ fuel →
      hillClimbWithSideStepping sortMoves rand fuel s =
        hillClimbWithSideStepping sortMoves rand keyBound s) ∧
    (∀ k d, afterPasses sortMoves rand k (initDriver s) = some d →
      k < keyBound ∧ (∀ key ∈ d.visitedStates, key ∈ permKeys) ∧
      ∀ d1, loopBody sortMoves rand d = Step.next d1 →
        toString d1.currentState ∉ d.visitedStates ∧
        d1.visitedStates = toString d1.currentState :: d.visitedStates) ∧
    permKeys.length = keyBound ∧ keyBound = Nat.factorial 9 := by
  obtain ⟨r0, hr0, _⟩ := hillClimb_returns hs rand hv
  refine ⟨⟨r0.currentState, by simp [hillClimbWithSideStepping, hr0]⟩, ?_, ?_, permKeys_length, rfl⟩
  · intro fuel hf
    obtain ⟨extra, rfl⟩ := Nat.exists_eq_add_of_le hf
    unfold hillClimbWithSideStepping
    rw [hillClimbLoop_mono sortMoves rand keyBound _ r0 hr0 extra, hr0]
  · intro k d hk
    obtain ⟨hi, hlen⟩ := afterPasses_inv hs rand k _ d (initDriver_inv hv) hk
    have hle := inv_length_le hi
    have h1 : (initDriver s).visitedStates.length = 1 := by simp [initDriver]
    refine ⟨by omega, hi.2.1, ?_⟩
    intro d1 hd1
    obtain ⟨_, hmem, hvis, _, _⟩ := loopBody_next hs rand hd1
    have hnot := (mem_unvisited.1 hmem).2
    exact ⟨hnot, by rw [hvis, List.insert_of_not_mem hnot]⟩

theorem C7_driver_terminates_witness :
    SortContract insertionSortMoves ∧ Valid mainState ∧
    (∃ r, hillClimbWithSideStepping insertionSortMoves (fun n => n) keyBound mainState = some r) ∧
    (∀ fuel, keyBound ≤ fuel →
      hillClimbWithSideStepping insertionSortMoves (fun n => n) fuel mainState =
        hillClimbWithSideStepping insertionSortMoves (fun n => n) keyBound mainState) ∧
    (∀ k d, afterPasses insertionSortMoves (fun n => n) k (initDriver mainState) = some d →
      k < keyBound ∧ (∀ key ∈ d.visitedStates, key ∈ permKeys) ∧
      ∀ d1, loopBody insertionSortMoves (fun n => n) d = Step.next d1 →
        toString d1.currentState ∉ d.visitedStates ∧
        d1.visitedStates = toString d1.currentState :: d.visitedStates) ∧
    permKeys.length = keyBound ∧ keyBound = Nat.factorial 9 :=
  ⟨insertionSortMoves_contract, by decide,
    C7_driver_terminates insertionSortMoves insertionSortMoves_contract (fun n => n) mainState
      (by decide)⟩

/-! ## The run of `main` -/

/-- A pass on a state that is not the goal and has one unvisited successor whose
heuristic is below that of every other one and below the current one moves there. -/
theorem loopBody_improve {sortMoves : List PuzzleState → List PuzzleState}
    (hs : SortContract sortMoves) (rand : Nat → Nat) (d : Driver) (m : PuzzleState)
    (hg : isGoal d.currentState = false)
    (hm : m ∈ unvisited d.visitedStates (generateMoves d.currentState))
    (hmin : ∀ x ∈ unvisited d.visitedStates (generateMoves d.currentState),
      x ≠ m → m.heuristic < x.heuristic)
    (hlt : m.heuristic < d.currentState.heuristic) :
    loopBody sortMoves rand d =
      Step.next
        { currentState := m
          visitedStates := List.insert (toString m) d.visitedStates
          sideSteps := 0
          randCalls := d.randCalls
          output := d.output ++ [(d.currentState.heuristic, d.currentState.board)] } := by
  unfold loopBody
  rw [hg]
  simp only [Bool.false_eq_true, if_false]
  cases hsort : sortMoves (unvisited d.visitedStates (generateMoves d.currentState)) with
  | nil =>
    have := (sort_mem hs _ m).2 hm
    rw [hsort] at this
    exact absurd this (List.not_mem_nil _)
  | cons m0 rest =>
    obtain ⟨h1, h2⟩ := sort_head_le hs hsort
    have e : m0 = m := by
      by_contra hne
      have := hmin m0 h1 hne
      have := h2 m hm
      omega
    subst e
    simp only [if_pos hlt]

theorem loopBody_goal (sortMoves : List PuzzleState → List PuzzleState) (rand : Nat → Nat)
    (d : Driver) (hg : isGoal d.currentState = true) :
    loopBody sortMoves rand d = Step.solved d := by
  unfold loopBody
  rw [if_pos hg]

theorem main_pass1 {sortMoves : List PuzzleState → List PuzzleState}
    (hs : SortContract sortMoves) (rand : Nat → Nat) :
    loopBody sortMoves rand (initDriver mainState) = Step.next mainPass1 := by
  rw [loopBody_improve hs rand (initDriver mainState) mainDown (by decide) (by decide) (by decide)
    (by decide)]
  decide

theorem main_pass2 {sortMoves : List PuzzleState → List PuzzleState}
    (hs : SortContract sortMoves) (rand : Nat → Nat) :
    loopBody sortMoves rand mainPass1 = Step.next mainPass2 := by
  rw [loopBody_improve hs rand mainPass1 goalState (by decide) (by decide) (by decide)
    (by decide)]
  decide

/-- C8: started on the board of `main` the driver ends Solved for every random
sequence: two improving passes, the empty cell moving down and then right with
heuristic 2, 1, 0, no side step and no call of `rand()`, and the goal board with
empty cell (2,2) and heuristic 0 is returned. -/
theorem C8_main_run_solved (sortMoves : List PuzzleState → List PuzzleState)
    (hs : SortContract sortMoves) (rand : Nat → Nat) :
    (∀ fuel, 3 ≤ fuel → hillClimbWithSideStepping sortMoves rand fuel mainState = some goalState) ∧
    (∀ fuel, 3 ≤ fuel →
      hillClimbLoop sortMoves rand fuel (initDriver mainState) = some mainPass2) ∧
    afterPasses sortMoves rand 1 (initDriver mainState) = some mainPass1 ∧
    afterPasses sortMoves rand 2 (initDriver mainState) = some mainPass2 ∧
    loopBody sortMoves rand mainPass2 = Step.solved mainPass2 ∧
    mainState = ⟨[[1, 2, 3], [4, 0, 6], [7, 5, 8]], 1, 1, 2⟩ ∧
    mainDown = successor mainState (1, 0) ∧ goalState = successor mainDown (0, 1) ∧
    mainDown.heuristic = 1 ∧
    goalState = ⟨[[1, 2, 3], [4, 5, 6], [7, 8, 0]], 2, 2, 0⟩ ∧
    isGoal goalState = true ∧ mainPass2.sideSteps = 0 ∧ mainPass2.randCalls = 0 := by
  have h1 := main_pass1 hs rand
  have h2 := main_pass2 hs rand
  have h3 := loopBody_goal sortMoves rand mainPass2 (by decide)
  have hloop : hillClimbLoop sortMoves rand 3 (initDriver mainState) = some mainPass2 := by
    simp only [hillClimbLoop, h1, h2, h3]
  refine ⟨?_, ?_, ?_, ?_, h3, by decide, by decide, by decide, rfl, rfl, by decide, rfl, rfl⟩
  · intro fuel hf
    obtain ⟨extra, rfl⟩ := Nat.exists_eq_add_of_le hf
    unfold hillClimbWithSideStepping
    rw [hillClimbLoop_mono sortMoves rand 3 _ _ hloop extra]
    rfl
  · intro fuel hf
    obtain ⟨extra, rfl⟩ := Nat.exists_eq_add_of_le hf
    exact hillClimbLoop_mono sortMoves rand 3 _ _ hloop extra
  · simp only [afterPasses, h1]
  · simp only [afterPasses, h1, h2]

theorem C8_main_run_solved_witness :
    SortContract insertionSortMoves ∧
    hillClimbWithSideStepping insertionSortMoves (fun n => n) 3 mainState = some goalState ∧
    hillClimbLoop insertionSortMoves (fun n => n) 3 (initDriver mainState) = some mainPass2 ∧
    afterPasses insertionSortMoves (fun n => n) 1 (initDriver mainState) = some mainPass1 ∧
    afterPasses insertionSortMoves (fun n => n) 2 (initDriver mainState) = some mainPass2 ∧
    loopBody insertionSortMoves (fun n => n) mainPass2 = Step.solved mainPass2 :=
  have h := C8_main_run_solved insertionSortMoves insertionSortMoves_contract (fun n => n)
  ⟨insertionSortMoves_contract, h.1 3 (le_refl 3), h.2.1 3 (le_refl 3), h.2.2.1, h.2.2.2.1,
    h.2.2.2.2.1⟩

/-! ## The visited set and the side-step counter -/

theorem visited_next {sortMoves : List PuzzleState → List PuzzleState}
    (hs : SortContract sortMoves) (rand : Nat → Nat) {d d1 : Driver}
    (h : loopBody sortMoves rand d = Step.next d1) :
    toString d1.currentState ∉ d.visitedStates ∧
      d1.visitedStates = toString d1.currentState :: d.visitedStates := by
  obtain ⟨_, hmem, hvis, _, _⟩ := loopBody_next hs rand h
  have hnot := (mem_unvisited.1 hmem).2
  exact ⟨hnot, by rw [hvis, List.insert_of_not_mem hnot]⟩

theorem visited_afterPasses {sortMoves : List PuzzleState → List PuzzleState}
    (hs : SortContract sortMoves) (rand : Nat → Nat) :
    ∀ (k : Nat) (d dk : Driver), d.visitedStates.Nodup →
      toString d.currentState ∈ d.visitedStates →
      afterPasses sortMoves rand k d = some dk →
      dk.visitedStates.Nodup ∧ toString dk.currentState ∈ dk.visitedStates ∧
        dk.visitedStates.length = d.visitedStates.length + k := by
  intro k
  induction k with
  | zero =>
    intro d dk hn hm h
    simp only [afterPasses, Option.some.injEq] at h
    subst h
    exact ⟨hn, hm, rfl⟩
  | succ k ih =>
    intro d dk hn hm h
    unfold afterPasses at h
    cases hd : loopBody sortMoves rand d with
    | next d1 =>
      rw [hd] at h
      obtain ⟨hnot, hvis⟩ := visited_next hs rand hd
      have hn1 : d1.visitedStates.Nodup := by
        rw [hvis]; exact List.nodup_cons.2 ⟨hnot, hn⟩
      have hm1 : toString d1.currentState ∈ d1.visitedStates := by
        rw [hvis]; exact List.mem_cons_self _ _
      obtain ⟨r1, r2, r3⟩ := ih d1 dk hn1 hm1 h
      refine ⟨r1, r2, ?_⟩
      rw [r3, hvis, List.length_cons]
      omega
    | solved d2 => rw [hd] at h; exact absurd h (by simp)
    | noMoves d2 => rw [hd] at h; exact absurd h (by simp)
    | limitReached d2 => rw [hd] at h; exact absurd h (by simp)

/-- C9: the visited set starts as the singleton of the key of the initial state; a
pass that leaves the loop does not change it and every transition adds exactly one
new key, so after `k` transitions it holds `k + 1` different keys, the key of the
current state among them. -/
theorem C9_visited_growth (sortMoves : List PuzzleState → List PuzzleState)
    (hs : SortContract sortMoves) (rand : Nat → Nat) (s : PuzzleState) :
    (initDriver s).visitedStates = [toString s] ∧
    ∀ k d, afterPasses sortMoves rand k (initDriver s) = some d →
      d.visitedStates.length = k + 1 ∧ d.visitedStates.Nodup ∧
      toString d.currentState ∈ d.visitedStates ∧
      (∀ d1, loopBody sortMoves rand d = Step.next d1 →
        toString d1.currentState ∉ d.visitedStates ∧
        d1.visitedStates = toString d1.currentState :: d.visitedStates ∧
        d1.visitedStates.length = d.visitedStates.length + 1) ∧
      (∀ d1, (loopBody sortMoves rand d = Step.solved d1 ∨
          loopBody sortMoves rand d = Step.noMoves d1 ∨
          loopBody sortMoves rand d = Step.limitReached d1) →
        d1.visitedStates = d.visitedStates) := by
  have h0 : (initDriver s).visitedStates = [toString s] := by simp [initDriver]
  refine ⟨h0, ?_⟩
  intro k d hk
  obtain ⟨r1, r2, r3⟩ := visited_afterPasses hs rand k (initDriver s) d
    (by rw [h0]; exact List.nodup_singleton _) (by rw [h0]; exact List.mem_singleton_self _) hk
  refine ⟨by rw [r3, h0]; simp [Nat.add_comm], r1, r2, ?_, ?_⟩
  · intro d1 hd1
    obtain ⟨hnot, hvis⟩ := visited_next hs rand hd1
    exact ⟨hnot, hvis, by rw [hvis]; rfl⟩
  · intro d1 hd1
    exact (loopBody_stop sortMoves rand hd1).2.1

theorem C9_visited_growth_witness :
    SortContract insertionSortMoves ∧
    (initDriver mainState).visitedStates = [toString mainState] ∧
    ∀ k d, afterPasses insertionSortMoves (fun n => n) k (initDriver mainState) = some d →
      d.visitedStates.length = k + 1 ∧ d.visitedStates.Nodup ∧
      toString d.currentState ∈ d.visitedStates ∧
      (∀ d1, loopBody insertionSortMoves (fun n => n) d = Step.next d1 →
        toString d1.currentState ∉ d.visitedStates ∧
        d1.visitedStates = toString d1.currentState :: d.visitedStates ∧
        d1.visitedStates.length = d.visitedStates.length + 1) ∧
      (∀ d1, (loopBody insertionSortMoves (fun n => n) d = Step.solved d1 ∨
          loopBody insertionSortMoves (fun n => n) d = Step.noMoves d1 ∨
          loopBody insertionSortMoves (fun n => n) d = Step.limitReached d1) →
        d1.visitedStates = d.visitedStates) :=
  ⟨insertionSortMoves_contract,
    C9_visited_growth insertionSortMoves insertionSortMoves_contract (fun n => n) mainState⟩

theorem sideSteps_afterPasses {sortMoves : List PuzzleState → List PuzzleState}
    (hs : SortContract sortMoves) (rand : Nat → Nat) :
    ∀ (k : Nat) (d dk : Driver), d.sideSteps ≤ MAX_SIDE_STEPS →
      afterPasses sortMoves rand k d = some dk → dk.sideSteps ≤ MAX_SIDE_STEPS := by
  intro k
  induction k with
  | zero =>
    intro d dk hd h
    simp only [afterPasses, Option.some.injEq] at h
    subst h
    exact hd
  | succ k ih =>
    intro d dk hd h
    unfold afterPasses at h
    cases hb : loopBody sortMoves rand d with
    | next d1 =>
      rw [hb] at h
      obtain ⟨_, _, _, _, hcase⟩ := loopBody_next hs rand hb
      refine ih d1 dk ?_ h
      rcases hcase with ⟨_, h0, _⟩ | ⟨_, hlt, h1, _⟩
      · rw [h0]; exact Nat.zero_le _
      · rw [h1]; exact hlt
    | solved d2 => rw [hb] at h; exact absurd h (by simp)
    | noMoves d2 => rw [hb] at h; exact absurd h (by simp)
    | limitReached d2 => rw [hb] at h; exact absurd h (by simp)

/-- In `j` successive transitions either one lowers the heuristic or the counter has
grown by `j`. -/
theorem sideSteps_run {sortMoves : List PuzzleState → List PuzzleState}
    (hs : SortContract sortMoves) (rand : Nat → Nat) :
    ∀ (j : Nat) (d dj : Driver), afterPasses sortMoves rand j d = some dj →
      (∃ i, i < j ∧ ∃ a b, afterPasses sortMoves rand i d = some a ∧
        loopBody sortMoves rand a = Step.next b ∧
        b.currentState.heuristic < a.currentState.heuristic) ∨
      dj.sideSteps = d.sideSteps + j := by
  intro j
  induction j with
  | zero =>
    intro d dj h
    simp only [afterPasses, Option.some.injEq] at h
    subst h
    exact Or.inr rfl
  | succ j ih =>
    intro d dj h
    unfold afterPasses at h
    cases hb : loopBody sortMoves rand d with
    | next d1 =>
      rw [hb] at h
      obtain ⟨_, _, _, _, hcase⟩ := loopBody_next hs rand hb
      rcases hcase with ⟨hlt, _, _⟩ | ⟨_, _, h1, _⟩
      · exact Or.inl ⟨0, Nat.succ_pos _, d, d1, rfl, hb, hlt⟩
      · rcases ih d1 dj h with ⟨i, hi, a, b, ha, hab, hlt⟩ | hsum
        · refine Or.inl ⟨i + 1, Nat.succ_lt_succ hi, a, b, ?_, hab, hlt⟩
          unfold afterPasses
          rw [hb]
          exact ha
        · exact Or.inr (by rw [hsum, h1]; omega)
    | solved d2 => rw [hb] at h; exact absurd h (by simp)
    | noMoves d2 => rw [hb] at h; exact absurd h (by simp)
    | limitReached d2 => rw [hb] at h; exact absurd h (by simp)

/-- C10: the side-step counter stays within 0..5: a transition that lowers the
heuristic resets it to 0, any other transition is taken only while it is below 5
and adds 1 to it, and among six successive transitions at least one lowers the
heuristic. -/
theorem C10_side_step_budget (sortMoves : List PuzzleState → List PuzzleState)
    (hs : SortContract sortMoves) (rand : Nat → Nat) (s : PuzzleState) :
    (initDriver s).sideSteps = 0 ∧
    ∀ k d, afterPasses sortMoves rand k (initDriver s) = some d →
      d.sideSteps ≤ 5 ∧
      (∀ d1, loopBody sortMoves rand d = Step.next d1 →
        (d1.currentState.heuristic < d.currentState.heuristic ∧ d1.sideSteps = 0) ∨
        (d.currentState.heuristic ≤ d1.currentState.heuristic ∧ d.sideSteps < 5 ∧
          d1.sideSteps = d.sideSteps + 1)) ∧
      (∀ d6, afterPasses sortMoves rand 6 d = some d6 →
        ∃ i, i < 6 ∧ ∃ a b, afterPasses sortMoves rand i d = some a ∧
          loopBody sortMoves rand a = Step.next b ∧
          b.currentState.heuristic < a.currentState.heuristic) := by
  refine ⟨rfl, ?_⟩
  intro k d hk
  have hd : d.sideSteps ≤ MAX_SIDE_STEPS :=
    sideSteps_afterPasses hs rand k (initDriver s) d (Nat.zero_le _) hk
  refine ⟨hd, ?_, ?_⟩
  · intro d1 hd1
    obtain ⟨_, _, _, _, hcase⟩ := loopBody_next hs rand hd1
    rcases hcase with ⟨hlt, h0, _⟩ | ⟨hge, hlt, h1, _⟩
    · exact Or.inl ⟨hlt, h0⟩
    · exact Or.inr ⟨hge, hlt, h1⟩
  · intro d6 h6
    rcases sideSteps_run hs rand 6 d d6 h6 with h | h
    · exact h
    · have := sideSteps_afterPasses hs rand 6 d d6 hd h6
      unfold MAX_SIDE_STEPS at this
      omega

theorem C10_side_step_budget_witness :
    SortContract insertionSortMoves ∧
    (afterPasses insertionSortMoves (fun _ => 0) 5 (initDriver plateauState)).map
      Driver.sideSteps = some 5 ∧
    (afterPasses insertionSortMoves (fun _ => 0) 6 (initDriver plateauState)).map
      Driver.sideSteps = some 0 ∧
    (initDriver plateauState).sideSteps = 0 ∧
    ∀ k d, afterPasses insertionSortMoves (fun _ => 0) k (initDriver plateauState) = some d →
      d.sideSteps ≤ 5 ∧
      (∀ d1, loopBody insertionSortMoves (fun _ => 0) d = Step.next d1 →
        (d1.currentState.heuristic < d.currentState.heuristic ∧ d1.sideSteps = 0) ∨
        (d.currentState.heuristic ≤ d1.currentState.heuristic ∧ d.sideSteps < 5 ∧
          d1.sideSteps = d.sideSteps + 1)) ∧
      (∀ d6, afterPasses insertionSortMoves (fun _ => 0) 6 d = some d6 →
        ∃ i, i < 6 ∧ ∃ a b, afterPasses insertionSortMoves (fun _ => 0) i d = some a ∧
          loopBody insertionSortMoves (fun _ => 0) a = Step.next b ∧
          b.currentState.heuristic < a.currentState.heuristic) :=
  ⟨insertionSortMoves_contract, by decide, by decide,
    C10_side_step_budget insertionSortMoves insertionSortMoves_contract (fun _ => 0)
      plateauState⟩

/-! ## How the loop is left -/

theorem loopBody_solved (sortMoves : List PuzzleState → List PuzzleState) (rand : Nat → Nat)
    {d r : Driver} (h : loopBody sortMoves rand d = Step.solved r) :
    r = d ∧ isGoal d.currentState = true := by
  unfold loopBody at h
  by_cases hg : isGoal d.currentState = true
  · rw [if_pos hg] at h
    injection h with h
    exact ⟨h.symm, hg⟩
  · rw [if_neg hg] at h
    simp only at h
    split at h
    · exact absurd h (by simp)
    · split at h
      · exact absurd h (by simp)
      · split at h <;> exact absurd h (by simp)

theorem loopBody_noMoves {sortMoves : List PuzzleState → List PuzzleState}
    (hs : SortContract sortMoves) (rand : Nat → Nat) {d r : Driver}
    (h : loopBody sortMoves rand d = Step.noMoves r) :
    isGoal d.currentState = false ∧
      unvisited d.visitedStates (generateMoves d.currentState) = [] ∧
      r = { d with output := d.output ++ [(d.currentState.heuristic, d.currentState.board)] } := by
  unfold loopBody at h
  by_cases hg : isGoal d.currentState = true
  · rw [if_pos hg] at h
    exact absurd h (by simp)
  · rw [if_neg hg] at h
    simp only at h
    cases hm : sortMoves (unvisited d.visitedStates (generateMoves d.currentState)) with
    | nil =>
      rw [hm] at h
      injection h with h
      refine ⟨by simpa using hg, ?_, h.symm⟩
      have hp := (hs (unvisited d.visitedStates (generateMoves d.currentState))).1
      rw [hm] at hp
      exact hp.symm.eq_nil
    | cons m0 rest =>
      rw [hm] at h
      simp only at h
      split at h
      · exact absurd h (by simp)
      · split at h <;> exact absurd h (by simp)

theorem loopBody_limitReached {sortMoves : List PuzzleState → List PuzzleState}
    (hs : SortContract sortMoves) (rand : Nat → Nat) {d r : Driver}
    (h : loopBody sortMoves rand d = Step.limitReached r) :
    isGoal d.currentState = false ∧ MAX_SIDE_STEPS ≤ d.sideSteps ∧
      unvisited d.visitedStates (generateMoves d.currentState) ≠ [] ∧
      (∀ x ∈ unvisited d.visitedStates (generateMoves d.currentState),
        d.currentState.heuristic ≤ x.heuristic) ∧
      r = { d with output := d.output ++ [(d.currentState.heuristic, d.currentState.board)] } := by
  unfold loopBody at h
  by_cases hg : isGoal d.currentState = true
  · rw [if_pos hg] at h
    exact absurd h (by simp)
  · rw [if_neg hg] at h
    simp only at h
    cases hm : sortMoves (unvisited d.visitedStates (generateMoves d.currentState)) with
    | nil =>
      rw [hm] at h
      exact absurd h (by simp)
    | cons m0 rest =>
      rw [hm] at h
      simp only at h
      have hh := sort_head_le hs hm
      by_cases hlt : m0.heuristic < d.currentState.heuristic
      · rw [if_pos hlt] at h
        exact absurd h (by simp)
      · rw [if_neg hlt] at h
        by_cases hss : d.sideSteps < MAX_SIDE_STEPS
        · rw [if_pos hss] at h
          exact absurd h (by simp)
        · rw [if_neg hss] at h
          injection h with h
          refine ⟨by simpa using hg, not_lt.1 hss, ?_, ?_, h.symm⟩
          · exact List.ne_nil_of_mem hh.1
          · intro x hx
            exact le_trans (not_lt.1 hlt) (hh.2 x hx)

/-- A result of the loop is the driver of a pass that left the loop, after some
number of completed passes. -/
theorem hillClimbLoop_exit (sortMoves : List PuzzleState → List PuzzleState) (rand : Nat → Nat) :
    ∀ (fuel : Nat) (d r : Driver), hillClimbLoop sortMoves rand fuel d = some r →
      ∃ k dk, k < fuel ∧ afterPasses sortMoves rand k d = some dk ∧
        (loopBody sortMoves rand dk = Step.solved r ∨ loopBody sortMoves rand dk = Step.noMoves r ∨
          loopBody sortMoves rand dk = Step.limitReached r) := by
  intro fuel
  induction fuel with
  | zero => intro d r h; exact absurd h (by simp [hillClimbLoop])
  | succ fuel ih =>
    intro d r h
    unfold hillClimbLoop at h
    cases hb : loopBody sortMoves rand d with
    | next d1 =>
      rw [hb] at h
      obtain ⟨k, dk, hk, hak, hex⟩ := ih d1 r h
      refine ⟨k + 1, dk, Nat.succ_lt_succ hk, ?_, hex⟩
      unfold afterPasses
      rw [hb]
      exact hak
    | solved d1 =>
      rw [hb] at h
      simp only [Option.some.injEq] at h
      subst h
      exact ⟨0, d, Nat.succ_pos _, rfl, Or.inl hb⟩
    | noMoves d1 =>
      rw [hb] at h
      simp only [Option.some.injEq] at h
      subst h
      exact ⟨0, d, Nat.succ_pos _, rfl, Or.inr (Or.inl hb)⟩
    | limitReached d1 =>
      rw [hb] at h
      simp only [Option.some.injEq] at h
      subst h
      exact ⟨0, d, Nat.succ_pos _, rfl, Or.inr (Or.inr hb)⟩

/-- C11: the returned state is a goal state exactly when the loop was left through
the goal test; when the loop was left otherwise the returned state is not a goal
state, and either every successor of it has its key in the visited set, or the
side-step counter is 5 and no unvisited successor has a heuristic below that of
the returned state. -/
theorem C11_exit_condition (sortMoves : List PuzzleState → List PuzzleState)
    (hs : SortContract sortMoves) (rand : Nat → Nat) (s : PuzzleState) :
    (Valid s → ∃ r, hillClimbLoop sortMoves rand keyBound (initDriver s) = some r) ∧
    ∀ fuel r, hillClimbLoop sortMoves rand fuel (initDriver s) = some r →
      ∃ k dk, afterPasses sortMoves rand k (initDriver s) = some dk ∧
        r.currentState = dk.currentState ∧ r.visitedStates = dk.visitedStates ∧
        r.sideSteps = dk.sideSteps ∧
        ((loopBody sortMoves rand dk = Step.solved r ∧ isGoal r.currentState = true) ∨
         (loopBody sortMoves rand dk = Step.noMoves r ∧ isGoal r.currentState = false ∧
            ∀ t ∈ generateMoves r.currentState, toString t ∈ r.visitedStates) ∨
         (loopBody sortMoves rand dk = Step.limitReached r ∧ isGoal r.currentState = false ∧
            r.sideSteps = 5 ∧
            (∃ t ∈ generateMoves r.currentState, toString t ∉ r.visitedStates) ∧
            ∀ t ∈ generateMoves r.currentState, toString t ∉ r.visitedStates →
              ¬ t.heuristic < r.currentState.heuristic)) := by
  refine ⟨fun hv => ?_, ?_⟩
  · obtain ⟨r, hr, _⟩ := hillClimb_returns hs rand hv
    exact ⟨r, hr⟩
  intro fuel r hr
  obtain ⟨k, dk, _, hak, hex⟩ := hillClimbLoop_exit sortMoves rand fuel _ r hr
  obtain ⟨e1, e2, e3, _⟩ := loopBody_stop sortMoves rand hex
  refine ⟨k, dk, hak, e1, e2, e3, ?_⟩
  rcases hex with h | h | h
  · left
    obtain ⟨rfl, hg⟩ := loopBody_solved sortMoves rand h
    exact ⟨h, hg⟩
  · right; left
    obtain ⟨hg, hnil, _⟩ := loopBody_noMoves hs rand h
    refine ⟨h, by rw [e1]; exact hg, ?_⟩
    intro t ht
    rw [e1] at ht
    rw [e2]
    by_contra hnot
    have : t ∈ unvisited dk.visitedStates (generateMoves dk.currentState) :=
      mem_unvisited.2 ⟨ht, hnot⟩
    rw [hnil] at this
    exact List.not_mem_nil _ this
  · right; right
    obtain ⟨hg, hge, hne, hmin, _⟩ := loopBody_limitReached hs rand h
    have hle := sideSteps_afterPasses hs rand k (initDriver s) dk (Nat.zero_le _) hak
    refine ⟨h, by rw [e1]; exact hg, ?_, ?_, ?_⟩
    · rw [e3]
      unfold MAX_SIDE_STEPS at hge hle
      omega
    · obtain ⟨t, ht⟩ := List.exists_mem_of_ne_nil _ hne
      obtain ⟨ht1, ht2⟩ := mem_unvisited.1 ht
      exact ⟨t, by rw [e1]; exact ht1, by rw [e2]; exact ht2⟩
    · intro t ht hnot
      rw [e1] at ht ⊢
      rw [e2] at hnot
      exact not_lt.2 (hmin t (mem_unvisited.2 ⟨ht, hnot⟩))

theorem C11_exit_condition_witness :
    SortContract insertionSortMoves ∧
    (Valid mainState →
      ∃ r, hillClimbLoop insertionSortMoves (fun n => n) keyBound (initDriver mainState) = some r) ∧
    ∀ fuel r, hillClimbLoop insertionSortMoves (fun n => n) fuel (initDriver mainState) = some r →
      ∃ k dk, afterPasses insertionSortMoves (fun n => n) k (initDriver mainState) = some dk ∧
        r.currentState = dk.currentState ∧ r.visitedStates = dk.visitedStates ∧
        r.sideSteps = dk.sideSteps ∧
        ((loopBody insertionSortMoves (fun n => n) dk = Step.solved r ∧
            isGoal r.currentState = true) ∨
         (loopBody insertionSortMoves (fun n => n) dk = Step.noMoves r ∧
            isGoal r.currentState = false ∧
            ∀ t ∈ generateMoves r.currentState, toString t ∈ r.visitedStates) ∨
         (loopBody insertionSortMoves (fun n => n) dk = Step.limitReached r ∧
            isGoal r.currentState = false ∧ r.sideSteps = 5 ∧
            (∃ t ∈ generateMoves r.currentState, toString t ∉ r.visitedStates) ∧
            ∀ t ∈ generateMoves r.currentState, toString t ∉ r.visitedStates →
              ¬ t.heuristic < r.currentState.heuristic)) :=
  ⟨insertionSortMoves_contract,
    C11_exit_condition insertionSortMoves insertionSortMoves_contract (fun n => n) mainState⟩

/-! ## A goal state at the start, and no board twice -/

/-- C13: when the initial state is a goal state the first goal test leaves the loop:
no pass is completed, nothing is printed, `rand()` is not called, and the state
returned is the initial state. -/
theorem C13_goal_at_start (sortMoves : List PuzzleState → List PuzzleState) (rand : Nat → Nat)
    (s : PuzzleState) (hg : isGoal s = true) :
    loopBody sortMoves rand (initDriver s) = Step.solved (initDriver s) ∧
    afterPasses sortMoves rand 1 (initDriver s) = none ∧
    (∀ fuel, hillClimbLoop sortMoves rand (fuel + 1) (initDriver s) = some (initDriver s)) ∧
    (∀ fuel, hillClimbWithSideStepping sortMoves rand (fuel + 1) s = some s) ∧
    (initDriver s).currentState = s ∧ (initDriver s).randCalls = 0 ∧
    (initDriver s).sideSteps = 0 ∧ (initDriver s).output = [] ∧
    (initDriver s).visitedStates = [toString s] := by
  have hb := loopBody_goal sortMoves rand (initDriver s) hg
  refine ⟨hb, ?_, ?_, ?_, rfl, rfl, rfl, rfl, by simp [initDriver]⟩
  · simp only [afterPasses, hb]
  · intro fuel
    simp only [hillClimbLoop, hb]
  · intro fuel
    simp only [hillClimbWithSideStepping, hillClimbLoop, hb]
    rfl

theorem C13_goal_at_start_witness :
    isGoal goalState = true ∧
    loopBody insertionSortMoves (fun n => n) (initDriver goalState) =
      Step.solved (initDriver goalState) ∧
    afterPasses insertionSortMoves (fun n => n) 1 (initDriver goalState) = none ∧
    hillClimbLoop insertionSortMoves (fun n => n) 1 (initDriver goalState) =
      some (initDriver goalState) ∧
    hillClimbWithSideStepping insertionSortMoves (fun n => n) 1 goalState = some goalState :=
  have h := C13_goal_at_start insertionSortMoves (fun n => n) goalState (by decide)
  ⟨by decide, h.1, h.2.1, h.2.2.1 0, h.2.2.2.1 0⟩

theorem afterPasses_add (sortMoves : List PuzzleState → List PuzzleState) (rand : Nat → Nat) :
    ∀ (i m : Nat) (d di dj : Driver), afterPasses sortMoves rand i d = some di →
      afterPasses sortMoves rand (i + m) d = some dj →
      afterPasses sortMoves rand m di = some dj := by
  intro i
  induction i with
  | zero =>
    intro m d di dj hi hj
    simp only [afterPasses, Option.some.injEq] at hi
    subst hi
    simpa using hj
  | succ i ih =>
    intro m d di dj hi hj
    rw [Nat.add_right_comm] at hj
    unfold afterPasses at hi hj
    cases hb : loopBody sortMoves rand d with
    | next d1 =>
      rw [hb] at hi hj
      exact ih m d1 di dj hi hj
    | solved d2 => rw [hb] at hi; exact absurd hi (by simp)
    | noMoves d2 => rw [hb] at hi; exact absurd hi (by simp)
    | limitReached d2 => rw [hb] at hi; exact absurd hi (by simp)

theorem afterPasses_last (sortMoves : List PuzzleState → List PuzzleState) (rand : Nat → Nat) :
    ∀ (m : Nat) (d d2 : Driver), afterPasses sortMoves rand (m + 1) d = some d2 →
      ∃ dm, afterPasses sortMoves rand m d = some dm ∧
        loopBody sortMoves rand dm = Step.next d2 := by
  intro m
  induction m with
  | zero =>
    intro d d2 h
    unfold afterPasses at h
    cases hb : loopBody sortMoves rand d with
    | next d1 =>
      rw [hb] at h
      simp only [afterPasses, Option.some.injEq] at h
      subst h
      exact ⟨d, rfl, hb⟩
    | solved d3 => rw [hb] at h; exact absurd h (by simp)
    | noMoves d3 => rw [hb] at h; exact absurd h (by simp)
    | limitReached d3 => rw [hb] at h; exact absurd h (by simp)
  | succ m ih =>
    intro d d2 h
    unfold afterPasses at h
    cases hb : loopBody sortMoves rand d with
    | next d1 =>
      rw [hb] at h
      obtain ⟨dm, hdm, hl⟩ := ih d1 d2 h
      refine ⟨dm, ?_, hl⟩
      unfold afterPasses
      rw [hb]
      exact hdm
    | solved d3 => rw [hb] at h; exact absurd h (by simp)
    | noMoves d3 => rw [hb] at h; exact absurd h (by simp)
    | limitReached d3 => rw [hb] at h; exact absurd h (by simp)

theorem visited_mono {sortMoves : List PuzzleState → List PuzzleState}
    (hs : SortContract sortMoves) (rand : Nat → Nat) :
    ∀ (m : Nat) (d dm : Driver), afterPasses sortMoves rand m d = some dm →
      ∀ key ∈ d.visitedStates, key ∈ dm.visitedStates := by
  intro m
  induction m with
  | zero =>
    intro d dm h key hk
    simp only [afterPasses, Option.some.injEq] at h
    subst h
    exact hk
  | succ m ih =>
    intro d dm h key hk
    unfold afterPasses at h
    cases hb : loopBody sortMoves rand d with
    | next d1 =>
      rw [hb] at h
      refine ih d1 dm h key ?_
      rw [(visited_next hs rand hb).2]
      exact List.mem_cons_of_mem _ hk
    | solved d3 => rw [hb] at h; exact absurd h (by simp)
    | noMoves d3 => rw [hb] at h; exact absurd h (by simp)
    | limitReached d3 => rw [hb] at h; exact absurd h (by simp)

theorem toString_of_board_eq {s t : PuzzleState} (h : s.board = t.board) :
    toString s = toString t := by
  unfold toString
  rw [h]

/-- C14: the current states of one run, the initial state and each state moved to,
have pairwise different boards. -/
theorem C14_no_board_twice (sortMoves : List PuzzleState → List PuzzleState)
    (hs : SortContract sortMoves) (rand : Nat → Nat) (s : PuzzleState) (_hv : Valid s) :
    ∀ i j di dj, i < j → afterPasses sortMoves rand i (initDriver s) = some di →
      afterPasses sortMoves rand j (initDriver s) = some dj →
      di.currentState.board ≠ dj.currentState.board := by
  intro i j di dj hij hi hj
  obtain ⟨m, rfl⟩ : ∃ m, j = i + (m + 1) := ⟨j - i - 1, by omega⟩
  have hrest := afterPasses_add sortMoves rand i (m + 1) _ di dj hi hj
  obtain ⟨dm, hdm, hl⟩ := afterPasses_last sortMoves rand m di dj hrest
  have h0 : (initDriver s).visitedStates = [toString s] := by simp [initDriver]
  obtain ⟨_, hmem, _⟩ := visited_afterPasses hs rand i (initDriver s) di
    (by rw [h0]; exact List.nodup_singleton _) (by rw [h0]; exact List.mem_singleton_self _) hi
  have hin := visited_mono hs rand m di dm hdm _ hmem
  intro hboard
  rw [toString_of_board_eq hboard] at hin
  exact (visited_next hs rand hl).1 hin

theorem C14_no_board_twice_witness :
    SortContract insertionSortMoves ∧ Valid mainState ∧
    ∀ i j di dj, i < j →
      afterPasses insertionSortMoves (fun n => n) i (initDriver mainState) = some di →
      afterPasses insertionSortMoves (fun n => n) j (initDriver mainState) = some dj →
      di.currentState.board ≠ dj.currentState.board :=
  ⟨insertionSortMoves_contract, by decide,
    C14_no_board_twice insertionSortMoves insertionSortMoves_contract (fun n => n) mainState
      (by decide)⟩

/-! ## The goal test cell by cell, and the number of moves off the corners -/

/-- C15: on every 3x3 board `isGoal` holds exactly when each cell `(i, j)` other than
`(2, 2)` holds `3 * i + j + 1` and the cell `(2, 2)` holds 0. -/
theorem C15_isGoal_positional (s : PuzzleState) (h3 : is3x3 s.board) :
    isGoal s = true ↔
      (∀ i j : Nat, i < 3 → j < 3 → ¬ (i = 2 ∧ j = 2) →
        cell s.board i j = 3 * (i : Int) + (j : Int) + 1) ∧
      cell s.board 2 2 = 0 := by
  obtain ⟨b, er, ec, h⟩ := s
  obtain ⟨a0, a1, a2, a3, a4, a5, a6, a7, a8, rfl⟩ := is3x3_rows h3
  rw [isGoal_rows]
  constructor
  · intro hb
    simp only [goalBoard, List.cons.injEq, and_true] at hb
    obtain ⟨⟨e0, e1, e2⟩, ⟨e3, e4, e5⟩, e6, e7, e8⟩ := hb
    subst e0 e1 e2 e3 e4 e5 e6 e7 e8
    refine ⟨?_, rfl⟩
    intro i j hi hj hne
    interval_cases i <;> interval_cases j <;> first | rfl | exact absurd ⟨rfl, rfl⟩ hne
  · rintro ⟨hc, h22⟩
    have c00 := hc 0 0 (by decide) (by decide) (by decide)
    have c01 := hc 0 1 (by decide) (by decide) (by decide)
    have c02 := hc 0 2 (by decide) (by decide) (by decide)
    have c10 := hc 1 0 (by decide) (by decide) (by decide)
    have c11 := hc 1 1 (by decide) (by decide) (by decide)
    have c12 := hc 1 2 (by decide) (by decide) (by decide)
    have c20 := hc 2 0 (by decide) (by decide) (by decide)
    have c21 := hc 2 1 (by decide) (by decide) (by decide)
    simp only [cell, List.getD_cons_zero, List.getD_cons_succ] at c00 c01 c02 c10 c11 c12 c20 c21 h22
    norm_num at c00 c01 c02 c10 c11 c12 c20 c21
    rw [c00, c01, c02, c10, c11, c12, c20, c21, h22]
    rfl

theorem C15_isGoal_positional_witness :
    is3x3 goalState.board ∧
    (isGoal goalState = true ↔
      (∀ i j : Nat, i < 3 → j < 3 → ¬ (i = 2 ∧ j = 2) →
        cell goalState.board i j = 3 * (i : Int) + (j : Int) + 1) ∧
      cell goalState.board 2 2 = 0) :=
  ⟨by decide, C15_isGoal_positional goalState (by decide)⟩

/-- The claim C16 read literally fails on the state `edgeState`: its empty cell
`(0, 1)` is not at a corner and `generateMoves` returns 3 states. -/
theorem C16_edge_counterexample :
    emptyInGrid edgeState ∧ ¬ atCorner edgeState ∧ (generateMoves edgeState).length = 3 ∧
      (generateMoves edgeState).length ≠ 4 := by
  decide

/-- C16, amended: off the corners `generateMoves` returns 4 states exactly when the
empty cell is at the centre `(1, 1)`, and 3 states when it is on an edge. -/
theorem C16_noncorner_count (s : PuzzleState) (h : emptyInGrid s) (hc : ¬ atCorner s) :
    (atCentre s → (generateMoves s).length = 4) ∧
    (¬ atCentre s → (generateMoves s).length = 3) ∧
    ((generateMoves s).length = 4 ↔ atCentre s) := by
  rw [generateMoves_eq, List.length_map]
  obtain ⟨b, er, ec, hh⟩ := s
  obtain ⟨h1, h2, h3, h4⟩ := h
  simp only at h1 h2 h3 h4
  revert hc
  interval_cases er <;> interval_cases ec <;>
    simp [directions, targetInGrid, N, atCorner, atCentre, List.filter]

theorem C16_noncorner_count_witness :
    emptyInGrid mainState ∧ ¬ atCorner mainState ∧
    (atCentre mainState → (generateMoves mainState).length = 4) ∧
    (¬ atCentre mainState → (generateMoves mainState).length = 3) ∧
    ((generateMoves mainState).length = 4 ↔ atCentre mainState) :=
  ⟨by decide, by decide, C16_noncorner_count mainState (by decide) (by decide)⟩

/-! ## Determinism -/

theorem cell_flat (a0 a1 a2 a3 a4 a5 a6 a7 a8 : Int) (i j : Nat) (hi : i < 3) (hj : j < 3) :
    cell [[a0, a1, a2], [a3, a4, a5], [a6, a7, a8]] i j =
      [a0, a1, a2, a3, a4, a5, a6, a7, a8].getD (3 * i + j) 0 := by
  interval_cases i <;> interval_cases j <;> rfl

/-- On a valid board only one cell holds 0. -/
theorem zero_cell_unique {b : List (List Int)} (hv : validBoard b) (i j i2 j2 : Nat)
    (hi : i < 3) (hj : j < 3) (hi2 : i2 < 3) (hj2 : j2 < 3)
    (h : cell b i j = 0) (h2 : cell b i2 j2 = 0) : i = i2 ∧ j = j2 := by
  obtain ⟨a0, a1, a2, a3, a4, a5, a6, a7, a8, rfl⟩ := is3x3_rows hv.1
  have hnd : [a0, a1, a2, a3, a4, a5, a6, a7, a8].Nodup := by
    have hp : List.Perm [a0, a1, a2, a3, a4, a5, a6, a7, a8] [0, 1, 2, 3, 4, 5, 6, 7, 8] := by
      simpa using hv.2
    exact hp.nodup_iff.2 (by decide)
  rw [cell_flat _ _ _ _ _ _ _ _ _ _ _ hi hj] at h
  rw [cell_flat _ _ _ _ _ _ _ _ _ _ _ hi2 hj2] at h2
  have l1 : 3 * i + j < [a0, a1, a2, a3, a4, a5, a6, a7, a8].length := by
    simp only [List.length_cons, List.length_nil]; omega
  have l2 : 3 * i2 + j2 < [a0, a1, a2, a3, a4, a5, a6, a7, a8].length := by
    simp only [List.length_cons, List.length_nil]; omega
  rw [List.getD_eq_getElem _ _ l1] at h
  rw [List.getD_eq_getElem _ _ l2] at h2
  have := (hnd.getElem_inj_iff).1 (h.trans h2.symm)
  omega

/-- A pass on a state that is not the goal, with unvisited successors none of which
lowers the heuristic and with the counter below the limit, is a side step to the
state at the index `rand() % size` of the sorted list. -/
theorem loopBody_sideStep {sortMoves : List PuzzleState → List PuzzleState}
    (hs : SortContract sortMoves) (rand : Nat → Nat) (d : Driver)
    (hg : isGoal d.currentState = false)
    (hne : unvisited d.visitedStates (generateMoves d.currentState) ≠ [])
    (hno : ∀ x ∈ unvisited d.visitedStates (generateMoves d.currentState),
      ¬ x.heuristic < d.currentState.heuristic)
    (hss : d.sideSteps < MAX_SIDE_STEPS) :
    ∃ chosen,
      (sortMoves (unvisited d.visitedStates (generateMoves d.currentState)))[rand d.randCalls %
        (unvisited d.visitedStates (generateMoves d.currentState)).length]? = some chosen ∧
      loopBody sortMoves rand d =
        Step.next
          { currentState := chosen
            visitedStates := List.insert (toString chosen) d.visitedStates
            sideSteps := d.sideSteps + 1
            randCalls := d.randCalls + 1
            output := d.output ++ [(d.currentState.heuristic, d.currentState.board)] } := by
  have hlen := (hs (unvisited d.visitedStates (generateMoves d.currentState))).1.length_eq
  cases hm : sortMoves (unvisited d.visitedStates (generateMoves d.currentState)) with
  | nil =>
    rw [hm] at hlen
    exact absurd (List.length_eq_zero.1 hlen.symm) hne
  | cons m0 rest =>
    have hh := sort_head_le hs hm
    rw [hm] at hlen
    have hidx : rand d.randCalls % (m0 :: rest).length < (m0 :: rest).length :=
      Nat.mod_lt _ (by simp)
    refine ⟨(m0 :: rest).getD (rand d.randCalls % (m0 :: rest).length) m0, ?_, ?_⟩
    · rw [← hlen, List.getD_eq_getElem _ _ hidx]
      exact List.getElem?_eq_getElem hidx
    · simp only [loopBody, hg, hm, if_neg (hno m0 hh.1), if_pos hss, Bool.false_eq_true, if_false]

/-- C18: when some successor is unvisited, no unvisited successor lowers the
heuristic and the counter is below 5, the pass moves to the state at index
`r mod m` of the sorted list of the `m` unvisited successors, `r` being the value
`rand()` returns; the state is an unvisited successor, its key is added to the
visited set, the counter grows by 1, and every unvisited successor is the one
moved to for some value of `r`. -/
theorem C18_side_step (sortMoves : List PuzzleState → List PuzzleState)
    (hs : SortContract sortMoves) (rand : Nat → Nat) (d : Driver)
    (hg : isGoal d.currentState = false)
    (hne : unvisited d.visitedStates (generateMoves d.currentState) ≠ [])
    (hno : ∀ x ∈ unvisited d.visitedStates (generateMoves d.currentState),
      ¬ x.heuristic < d.currentState.heuristic)
    (hss : d.sideSteps < 5) :
    (∃ chosen,
      (sortMoves (unvisited d.visitedStates (generateMoves d.currentState)))[rand d.randCalls %
        (unvisited d.visitedStates (generateMoves d.currentState)).length]? = some chosen ∧
      loopBody sortMoves rand d =
        Step.next
          { currentState := chosen
            visitedStates := toString chosen :: d.visitedStates
            sideSteps := d.sideSteps + 1
            randCalls := d.randCalls + 1
            output := d.output ++ [(d.currentState.heuristic, d.currentState.board)] } ∧
      chosen ∈ generateMoves d.currentState ∧ toString chosen ∉ d.visitedStates) ∧
    (∀ t ∈ unvisited d.visitedStates (generateMoves d.currentState),
      ∃ r, ∀ rand2 : Nat → Nat, rand2 d.randCalls = r →
        ∃ d1, loopBody sortMoves rand2 d = Step.next d1 ∧ d1.currentState = t) := by
  constructor
  · obtain ⟨chosen, hc, hl⟩ := loopBody_sideStep hs rand d hg hne hno hss
    have hmem : chosen ∈ unvisited d.visitedStates (generateMoves d.currentState) :=
      (sort_mem hs _ _).1 (List.getElem?_mem hc)
    obtain ⟨h1, h2⟩ := mem_unvisited.1 hmem
    rw [List.insert_of_not_mem h2] at hl
    exact ⟨chosen, hc, hl, h1, h2⟩
  · intro t ht
    have hlen := (hs (unvisited d.visitedStates (generateMoves d.currentState))).1.length_eq
    obtain ⟨i, hi, hti⟩ := List.getElem_of_mem ((sort_mem hs _ _).2 ht)
    refine ⟨i, fun rand2 hr => ?_⟩
    obtain ⟨chosen, hc, hl⟩ := loopBody_sideStep hs rand2 d hg hne hno hss
    refine ⟨_, hl, ?_⟩
    rw [hr, ← hlen, Nat.mod_eq_of_lt hi, List.getElem?_eq_getElem hi, hti] at hc
    exact (Option.some.inj hc).symm

theorem C18_side_step_witness :
    SortContract insertionSortMoves ∧ isGoal (initDriver plateauState).currentState = false ∧
    (initDriver plateauState).sideSteps < 5 ∧
    (∃ chosen,
      (insertionSortMoves (unvisited (initDriver plateauState).visitedStates
        (generateMoves (initDriver plateauState).currentState)))[(fun n : Nat => n + 1)
          (initDriver plateauState).randCalls %
        (unvisited (initDriver plateauState).visitedStates
          (generateMoves (initDriver plateauState).currentState)).length]? = some chosen ∧
      loopBody insertionSortMoves (fun n => n + 1) (initDriver plateauState) =
        Step.next
          { currentState := chosen
            visitedStates := toString chosen :: (initDriver plateauState).visitedStates
            sideSteps := (initDriver plateauState).sideSteps + 1
            randCalls := (initDriver plateauState).randCalls + 1
            output := (initDriver plateauState).output ++
              [((initDriver plateauState).currentState.heuristic,
                (initDriver plateauState).currentState.board)] } ∧
      chosen ∈ generateMoves (initDriver plateauState).currentState ∧
      toString chosen ∉ (initDriver plateauState).visitedStates) :=
  ⟨insertionSortMoves_contract, by decide, by decide,
    (C18_side_step insertionSortMoves insertionSortMoves_contract (fun n => n + 1)
      (initDriver plateauState) (by decide) (by decide) (by decide) (by decide)).1⟩

/-! ## The improving transition and ties -/

theorem find_first (p : PuzzleState → Bool) :
    ∀ (pre : List PuzzleState) (m : PuzzleState) (post : List PuzzleState),
      (∀ x ∈ pre, p x = false) → p m = true → (pre ++ m :: post).find? p = some m := by
  intro pre
  induction pre with
  | nil =>
    intro m post _ hm
    simp [List.find?, hm]
  | cons a pre ih =>
    intro m post hpre hm
    rw [List.cons_append, List.find?_cons_of_neg _ (by simp [hpre a (List.mem_cons_self _ _)])]
    exact ih m post (fun x hx => hpre x (List.mem_cons_of_mem _ hx)) hm

/-- A state in front of which all states have a larger heuristic, and behind which
none has a smaller one, is the first minimal state of the list. -/
theorem firstMinimal_of_split {pre post : List PuzzleState} {m : PuzzleState}
    (hpre : ∀ x ∈ pre, m.heuristic < x.heuristic)
    (hpost : ∀ x ∈ post, m.heuristic ≤ x.heuristic) :
    firstMinimal (pre ++ m :: post) = some m := by
  unfold firstMinimal
  apply find_first
  · intro x hx
    rw [Bool.eq_false_iff]
    intro hall
    have := (List.all_eq_true.1 hall) m (by simp)
    have h1 := hpre x hx
    simp only [decide_eq_true_eq] at this
    omega
  · rw [List.all_eq_true]
    intro x hx
    simp only [decide_eq_true_eq]
    rcases List.mem_append.1 hx with h | h
    · exact le_of_lt (hpre x h)
    · rcases List.mem_cons.1 h with rfl | h2
      · exact le_refl _
      · exact hpost x h2

/-- The head of the stable insertion sort splits the list it sorts. -/
theorem insertionSortMoves_head_split :
    ∀ (l : List PuzzleState) (m : PuzzleState) (rest : List PuzzleState),
      insertionSortMoves l = m :: rest →
      ∃ pre post, l = pre ++ m :: post ∧ (∀ x ∈ pre, m.heuristic < x.heuristic) ∧
        ∀ x ∈ post, m.heuristic ≤ x.heuristic := by
  intro l
  induction l with
  | nil => intro m rest h; exact absurd h (by simp [insertionSortMoves])
  | cons a l ih =>
    intro m rest h
    unfold insertionSortMoves at h
    cases hl : insertionSortMoves l with
    | nil =>
      rw [hl] at h
      have hnil : l = [] := by
        have hp := (insertionSortMoves_contract l).1
        rw [hl] at hp
        exact hp.symm.eq_nil
      simp only [insertMove, List.cons.injEq] at h
      obtain ⟨rfl, _⟩ := h
      exact ⟨[], [], by rw [hnil]; rfl, by simp, by simp⟩
    | cons m2 rest2 =>
      rw [hl] at h
      obtain ⟨pre, post, hsplit, hpre, hpost⟩ := ih m2 rest2 hl
      have hmin := (sort_head_le insertionSortMoves_contract hl).2
      unfold insertMove at h
      by_cases hle : a.heuristic ≤ m2.heuristic
      · rw [if_pos hle] at h
        obtain ⟨rfl, _⟩ := List.cons.inj h
        exact ⟨[], l, rfl, by simp, fun x hx => le_trans hle (hmin x hx)⟩
      · rw [if_neg hle] at h
        obtain ⟨rfl, _⟩ := List.cons.inj h
        refine ⟨a :: pre, post, by rw [hsplit]; rfl, ?_, hpost⟩
        intro x hx
        rcases List.mem_cons.1 hx with rfl | hx2
        · exact not_le.1 hle
        · exact hpre x hx2

theorem insertionSortMoves_head (l : List PuzzleState) :
    (insertionSortMoves l).head? = firstMinimal l := by
  cases hl : insertionSortMoves l with
  | nil =>
    have hnil : l = [] := by
      have hp := (insertionSortMoves_contract l).1
      rw [hl] at hp
      exact hp.symm.eq_nil
    rw [hnil]
    rfl
  | cons m rest =>
    obtain ⟨pre, post, hsplit, hpre, hpost⟩ := insertionSortMoves_head_split l m rest hl
    rw [hsplit, firstMinimal_of_split hpre hpost]
    rfl

/-- A pass on a state that is not the goal and has an unvisited successor of lower
heuristic moves to the head of the sorted list. -/
theorem loopBody_improve_head {sortMoves : List PuzzleState → List PuzzleState}
    (hs : SortContract sortMoves) (rand : Nat → Nat) (d : Driver)
    (hg : isGoal d.currentState = false)
    (hex : ∃ x ∈ unvisited d.visitedStates (generateMoves d.currentState),
      x.heuristic < d.currentState.heuristic) :
    ∃ m, (sortMoves (unvisited d.visitedStates (generateMoves d.currentState))).head? = some m ∧
      m ∈ unvisited d.visitedStates (generateMoves d.currentState) ∧
      (∀ x ∈ unvisited d.visitedStates (generateMoves d.currentState),
        m.heuristic ≤ x.heuristic) ∧
      m.heuristic < d.currentState.heuristic ∧
      loopBody sortMoves rand d =
        Step.next
          { currentState := m
            visitedStates := toString m :: d.visitedStates
            sideSteps := 0
            randCalls := d.randCalls
            output := d.output ++ [(d.currentState.heuristic, d.currentState.board)] } := by
  obtain ⟨x, hx, hxlt⟩ := hex
  cases hm : sortMoves (unvisited d.visitedStates (generateMoves d.currentState)) with
  | nil =>
    have := (sort_mem hs _ x).2 hx
    rw [hm] at this
    exact absurd this (List.not_mem_nil _)
  | cons m0 rest =>
    obtain ⟨h1, h2⟩ := sort_head_le hs hm
    have hlt : m0.heuristic < d.currentState.heuristic := lt_of_le_of_lt (h2 x hx) hxlt
    refine ⟨m0, rfl, h1, h2, hlt, ?_⟩
    simp only [loopBody, hg, hm, if_pos hlt, Bool.false_eq_true, if_false,
      List.insert_of_not_mem (mem_unvisited.1 h1).2]

/-! ## The sort of the library is the stable insertion sort -/

theorem insertMove_insertMoveBehind (a v : PuzzleState) :
    ∀ l : List PuzzleState,
      insertMove a (insertMoveBehind v l) = insertMoveBehind v (insertMove a l) := by
  intro l
  induction l with
  | nil =>
    simp only [insertMove, insertMoveBehind]
    by_cases h : a.heuristic ≤ v.heuristic
    · rw [if_pos h, if_neg (not_lt.2 h)]
    · rw [if_neg h, if_pos (not_le.1 h)]
  | cons x l ih =>
    by_cases hax : a.heuristic ≤ x.heuristic <;> by_cases hvx : v.heuristic < x.heuristic
    · by_cases h : a.heuristic ≤ v.heuristic
      · simp only [insertMove, insertMoveBehind, if_pos hax, if_pos hvx, if_pos h,
          if_neg (not_lt.2 h)]
      · simp only [insertMove, insertMoveBehind, if_pos hax, if_pos hvx, if_neg h,
          if_pos (not_le.1 h)]
    · have hva : ¬ v.heuristic < a.heuristic := by omega
      simp only [insertMove, insertMoveBehind, if_pos hax, if_neg hvx, if_neg hva]
    · have hav : ¬ a.heuristic ≤ v.heuristic := by omega
      simp only [insertMove, insertMoveBehind, if_neg hax, if_pos hvx, if_neg hav]
    · simp only [insertMove, insertMoveBehind, if_neg hax, if_neg hvx, ih]

/-- Sorting a list with one more element at its end places that element behind the
elements that are not larger. -/
theorem insertionSortMoves_append (v : PuzzleState) :
    ∀ l : List PuzzleState,
      insertionSortMoves (l ++ [v]) = insertMoveBehind v (insertionSortMoves l) := by
  intro l
  induction l with
  | nil => rfl
  | cons a l ih =>
    rw [List.cons_append]
    simp only [insertionSortMoves]
    rw [ih, insertMove_insertMoveBehind]

theorem insertMoveBehind_append_of_lt (v n : PuzzleState) (h : v.heuristic < n.heuristic) :
    ∀ l : List PuzzleState, insertMoveBehind v (l ++ [n]) = insertMoveBehind v l ++ [n] := by
  intro l
  induction l with
  | nil => simp only [List.nil_append, insertMoveBehind, if_pos h, List.cons_append]
  | cons x l ih =>
    rw [List.cons_append]
    by_cases hx : v.heuristic < x.heuristic
    · simp only [insertMoveBehind, if_pos hx, List.cons_append]
    · simp only [insertMoveBehind, if_neg hx, ih, List.cons_append]

theorem insertMoveBehind_of_not_lt (v : PuzzleState) :
    ∀ l : List PuzzleState, (∀ x ∈ l, ¬ v.heuristic < x.heuristic) →
      insertMoveBehind v l = l ++ [v] := by
  intro l
  induction l with
  | nil => intro _; rfl
  | cons x l ih =>
    intro h
    simp only [insertMoveBehind, if_neg (h x (List.mem_cons_self _ _)), List.cons_append,
      ih (fun y hy => h y (List.mem_cons_of_mem _ hy))]

/-- On a range sorted in ascending order `__unguarded_linear_insert` places the
element in front of the first element it is smaller than. -/
theorem unguardedLinearInsert_eq (v : PuzzleState) :
    ∀ r : List PuzzleState,
      List.Pairwise (fun a b : PuzzleState => b.heuristic ≤ a.heuristic) r →
      (unguardedLinearInsert v r).reverse = insertMoveBehind v r.reverse := by
  intro r
  induction r with
  | nil => intro _; rfl
  | cons n more ih =>
    intro hp
    have hc := List.pairwise_cons.1 hp
    by_cases hvn : v.heuristic < n.heuristic
    · simp only [unguardedLinearInsert, if_pos hvn, List.reverse_cons, ih hc.2,
        insertMoveBehind_append_of_lt v n hvn]
    · simp only [unguardedLinearInsert, if_neg hvn, List.reverse_cons]
      rw [insertMoveBehind_of_not_lt]
      intro x hx
      rcases List.mem_append.1 hx with h | h
      · have := hc.1 x (List.mem_reverse.1 h)
        omega
      · rw [List.mem_singleton.1 h]
        exact hvn

theorem insertionSortStep_eq (v : PuzzleState) (l : List PuzzleState)
    (hl : List.Pairwise (fun a b : PuzzleState => a.heuristic ≤ b.heuristic) l) :
    insertionSortStep v l = insertMoveBehind v l := by
  cases l with
  | nil => rfl
  | cons first rest =>
    by_cases h : v.heuristic < first.heuristic
    · simp only [insertionSortStep, insertMoveBehind, if_pos h]
    · simp only [insertionSortStep, if_neg h]
      rw [unguardedLinearInsert_eq v _ (List.pairwise_reverse.2 hl), List.reverse_reverse]

theorem insertionSortLoop_eq :
    ∀ (rest l : List PuzzleState),
      insertionSortLoop (insertionSortMoves l) rest = insertionSortMoves (l ++ rest) := by
  intro rest
  induction rest with
  | nil => intro l; simp only [insertionSortLoop, List.append_nil]
  | cons v rest ih =>
    intro l
    simp only [insertionSortLoop]
    rw [insertionSortStep_eq v _ (insertionSortMoves_contract l).2, ← insertionSortMoves_append,
      ih, List.append_assoc]
    rfl

/-- The insertion sort of libstdc++ and the recursive stable insertion sort are the
same function. -/
theorem stdSortMoves_eq (l : List PuzzleState) : stdSortMoves l = insertionSortMoves l := by
  cases l with
  | nil => rfl
  | cons first rest =>
    have := insertionSortLoop_eq rest [first]
    simpa [stdSortMoves, insertionSortMoves, insertMove] using this

theorem stdSortMoves_contract : SortContract stdSortMoves := by
  intro l
  rw [stdSortMoves_eq]
  exact insertionSortMoves_contract l

theorem generateMoves_length_le (s : PuzzleState) : (generateMoves s).length ≤ 4 := by
  rw [generateMoves_eq, List.length_map]
  exact le_trans (List.length_filter_le _ _) (le_refl 4)

theorem unvisited_length_le (visited : List (List Char)) (s : PuzzleState) :
    (unvisited visited (generateMoves s)).length ≤ 4 :=
  le_trans (List.length_filter_le _ _) (generateMoves_length_le s)

/-- C12: when some unvisited successor has a heuristic below that of the current
state, the pass moves to the head of the list `std::sort` returns, which is the
head of the stable ascending sort by heuristic and the first unvisited successor
in generation order (up, down, left, right) whose heuristic is the least; its key
is added to the visited set and the counter is reset to 0. Every sort that keeps
the promise of `std::sort` moves to an unvisited successor of least heuristic. -/
theorem C12_improving_transition (rand : Nat → Nat) (d : Driver)
    (hg : isGoal d.currentState = false)
    (hex : ∃ x ∈ unvisited d.visitedStates (generateMoves d.currentState),
      x.heuristic < d.currentState.heuristic) :
    (∃ first pre post,
      unvisited d.visitedStates (generateMoves d.currentState) = pre ++ first :: post ∧
      (∀ x ∈ pre, first.heuristic < x.heuristic) ∧
      (∀ x ∈ post, first.heuristic ≤ x.heuristic) ∧
      firstMinimal (unvisited d.visitedStates (generateMoves d.currentState)) = some first ∧
      (stdSortMoves (unvisited d.visitedStates (generateMoves d.currentState))).head? =
        some first ∧
      (insertionSortMoves (unvisited d.visitedStates (generateMoves d.currentState))).head? =
        some first ∧
      first ∈ generateMoves d.currentState ∧ toString first ∉ d.visitedStates ∧
      first.heuristic < d.currentState.heuristic ∧
      loopBody stdSortMoves rand d =
        Step.next
          { currentState := first
            visitedStates := toString first :: d.visitedStates
            sideSteps := 0
            randCalls := d.randCalls
            output := d.output ++ [(d.currentState.heuristic, d.currentState.board)] }) ∧
    generateMoves d.currentState =
      ([(-1, 0), (1, 0), (0, -1), (0, 1)].filter (targetInGrid d.currentState)).map
        (successor d.currentState) ∧
    List.Sublist (unvisited d.visitedStates (generateMoves d.currentState))
      (generateMoves d.currentState) ∧
    (unvisited d.visitedStates (generateMoves d.currentState)).length ≤ 4 ∧
    (∀ sortMoves : List PuzzleState → List PuzzleState, SortContract sortMoves →
      ∃ m, m ∈ generateMoves d.currentState ∧ toString m ∉ d.visitedStates ∧
        (∀ x ∈ unvisited d.visitedStates (generateMoves d.currentState),
          m.heuristic ≤ x.heuristic) ∧
        loopBody sortMoves rand d =
          Step.next
            { currentState := m
              visitedStates := toString m :: d.visitedStates
              sideSteps := 0
              randCalls := d.randCalls
              output := d.output ++ [(d.currentState.heuristic, d.currentState.board)] }) := by
  refine ⟨?_, generateMoves_eq _, List.filter_sublist _, unvisited_length_le _ _, ?_⟩
  · obtain ⟨m, h1, h2, _, h4, h5⟩ := loopBody_improve_head stdSortMoves_contract rand d hg hex
    obtain ⟨g1, g2⟩ := mem_unvisited.1 h2
    have h1b := h1
    rw [stdSortMoves_eq] at h1b
    cases hl : insertionSortMoves (unvisited d.visitedStates (generateMoves d.currentState)) with
    | nil =>
      rw [hl] at h1b
      exact absurd h1b (by simp)
    | cons m2 rest =>
      rw [hl] at h1b
      simp only [List.head?_cons, Option.some.injEq] at h1b
      subst h1b
      obtain ⟨pre, post, hsplit, hpre, hpost⟩ := insertionSortMoves_head_split _ m2 rest hl
      refine ⟨m2, pre, post, hsplit, hpre, hpost, ?_, h1, ?_, g1, g2, h4, h5⟩
      · rw [← insertionSortMoves_head, hl]
        rfl
      · rfl
  · intro sortMoves hs
    obtain ⟨m, _, h2, h3, _, h5⟩ := loopBody_improve_head hs rand d hg hex
    obtain ⟨g1, g2⟩ := mem_unvisited.1 h2
    exact ⟨m, g1, g2, h3, h5⟩

theorem C12_improving_transition_witness :
    isGoal (initDriver tieState).currentState = false ∧
    (∃ x ∈ unvisited (initDriver tieState).visitedStates
        (generateMoves (initDriver tieState).currentState),
      x.heuristic < (initDriver tieState).currentState.heuristic) ∧
    (generateMoves tieState).map PuzzleState.heuristic = [9, 9, 9, 9] ∧
    loopBody stdSortMoves (fun n => n) (initDriver tieState) =
      Step.next
        { currentState := successor tieState (-1, 0)
          visitedStates := [toString (successor tieState (-1, 0)), toString tieState]
          sideSteps := 0
          randCalls := 0
          output := [(10, tieState.board)] } := by
  refine ⟨by decide, by decide, by decide, ?_⟩
  obtain ⟨⟨first, _, _, _, _, _, hf, _, _, _, _, _, hl⟩, _⟩ :=
    C12_improving_transition (fun n => n) (initDriver tieState) (by decide) (by decide)
  have he : firstMinimal (unvisited (initDriver tieState).visitedStates
      (generateMoves (initDriver tieState).currentState)) = some (successor tieState (-1, 0)) := by
    decide
  rw [he] at hf
  rw [← Option.some.inj hf] at hl
  rw [hl]
  decide

/-! ## A move changes the heuristic by one -/

theorem tileDistance_zero (i j : Nat) : tileDistance 0 i j = 0 := by
  simp [tileDistance]

theorem manhattan_rows (a0 a1 a2 a3 a4 a5 a6 a7 a8 : Int) :
    manhattan [[a0, a1, a2], [a3, a4, a5], [a6, a7, a8]] =
      tileDistance a0 0 0 + tileDistance a1 0 1 + tileDistance a2 0 2 +
      tileDistance a3 1 0 + tileDistance a4 1 1 + tileDistance a5 1 2 +
      tileDistance a6 2 0 + tileDistance a7 2 1 + tileDistance a8 2 2 := by
  rw [manhattan_cells]
  rfl

/-- Moving a tile to a neighbouring cell changes its distance by exactly one. -/
theorem tileDistance_neighbour (v : Int) (h1 : 1 ≤ v) (h8 : v ≤ 8) (i j i2 j2 : Nat)
    (hi : i < 3) (hj : j < 3) (hi2 : i2 < 3) (hj2 : j2 < 3)
    (hadj : (i2 = i + 1 ∧ j2 = j) ∨ (i = i2 + 1 ∧ j2 = j) ∨ (i2 = i ∧ j2 = j + 1) ∨
      (i2 = i ∧ j = j2 + 1)) :
    tileDistance v i2 j2 = tileDistance v i j + 1 ∨
      tileDistance v i2 j2 = tileDistance v i j - 1 := by
  interval_cases i <;> interval_cases j <;> interval_cases i2 <;> interval_cases j2 <;>
    first
    | (exfalso; omega)
    | (interval_cases v <;> decide)

/-- The cell the empty cell moves to holds a tile `1..8`, and that tile's distance
changes by one when it moves to the empty cell. -/
theorem moved_tile (s : PuzzleState) (hv : Valid s) (d : Int × Int) (hd : d ∈ directions)
    (ht : targetInGrid s d = true) :
    cell s.board (s.emptyRow + d.1).toNat (s.emptyCol + d.2).toNat ≠ 0 ∧
    (tileDistance (cell s.board (s.emptyRow + d.1).toNat (s.emptyCol + d.2).toNat)
        s.emptyRow.toNat s.emptyCol.toNat =
      tileDistance (cell s.board (s.emptyRow + d.1).toNat (s.emptyCol + d.2).toNat)
        (s.emptyRow + d.1).toNat (s.emptyCol + d.2).toNat + 1 ∨
     tileDistance (cell s.board (s.emptyRow + d.1).toNat (s.emptyCol + d.2).toNat)
        s.emptyRow.toNat s.emptyCol.toNat =
      tileDistance (cell s.board (s.emptyRow + d.1).toNat (s.emptyCol + d.2).toNat)
        (s.emptyRow + d.1).toNat (s.emptyCol + d.2).toNat - 1) := by
  obtain ⟨hvb, ⟨h1, h2, h3, h4⟩, h0⟩ := hv
  have ht2 := ht
  simp only [targetInGrid, decide_eq_true_eq, N] at ht2
  have hdir := mem_directions hd
  obtain ⟨dr, dc⟩ := d
  simp only [Prod.mk.injEq] at hdir
  simp only at ht2 ⊢
  have hne : cell s.board (s.emptyRow + dr).toNat (s.emptyCol + dc).toNat ≠ 0 := by
    intro hz
    have := zero_cell_unique hvb (s.emptyRow + dr).toNat (s.emptyCol + dc).toNat
      s.emptyRow.toNat s.emptyCol.toNat (by omega) (by omega) (by omega)
      (by omega) hz h0
    omega
  have hr := cell_range (validBoard_tilesInRange hvb) (s.emptyRow + dr).toNat
    (s.emptyCol + dc).toNat
  refine ⟨hne, ?_⟩
  apply tileDistance_neighbour _ (by omega) hr.2 _ _ _ _ (by omega) (by omega) (by omega)
    (by omega)
  omega

set_option maxHeartbeats 1600000 in
/-- The heuristic of a successor of a valid state is the Manhattan sum of the state
plus or minus one. -/
theorem successor_heuristic (s : PuzzleState) (hv : Valid s) (d : Int × Int)
    (hd : d ∈ directions) (ht : targetInGrid s d = true) :
    (successor s d).heuristic = manhattan s.board + 1 ∨
      (successor s d).heuristic = manhattan s.board - 1 := by
  obtain ⟨hne, hadj⟩ := moved_tile s hv d hd ht
  obtain ⟨b, er, ec, hh⟩ := s
  obtain ⟨⟨h3, hp⟩, ⟨h1, h2, h4, h5⟩, h0⟩ := hv
  obtain ⟨a0, a1, a2, a3, a4, a5, a6, a7, a8, rfl⟩ := is3x3_rows h3
  simp only at h1 h2 h4 h5 h0 hne hadj
  clear hp h3
  rcases mem_directions hd with rfl | rfl | rfl | rfl <;>
    interval_cases er <;> interval_cases ec <;>
    first
    | (exfalso; revert ht; simp [targetInGrid, N]; done)
    | (simp [cell] at h0 hadj
       subst h0
       simp only [successor, swapTiles, calculateAndSetHeuristic]
       simp [setCell, cell, manhattan_rows, tileDistance_zero]
       omega)

theorem generateMoves_heuristic {s t : PuzzleState} (ht : t ∈ generateMoves s) :
    t.heuristic = manhattan t.board := by
  rw [generateMoves_eq] at ht
  obtain ⟨d, _, rfl⟩ := List.mem_map.1 ht
  rfl

theorem generateMoves_step {s : PuzzleState} (hv : Valid s) {t : PuzzleState}
    (ht : t ∈ generateMoves s) :
    t.heuristic = manhattan s.board + 1 ∨ t.heuristic = manhattan s.board - 1 := by
  rw [generateMoves_eq] at ht
  obtain ⟨d, hd, rfl⟩ := List.mem_map.1 ht
  have hd2 := List.mem_filter.1 hd
  exact successor_heuristic s hv d hd2.1 hd2.2

/-- A property of valid states that every successor inherits holds of every current
state of the driver. -/
theorem afterPasses_preserves {sortMoves : List PuzzleState → List PuzzleState}
    (hs : SortContract sortMoves) (rand : Nat → Nat) (P : PuzzleState → Prop)
    (hP : ∀ s t, Valid s → P s → t ∈ generateMoves s → P t) :
    ∀ (k : Nat) (d dk : Driver), Valid d.currentState → P d.currentState →
      afterPasses sortMoves rand k d = some dk → Valid dk.currentState ∧ P dk.currentState := by
  intro k
  induction k with
  | zero =>
    intro d dk hv hp h
    simp only [afterPasses, Option.some.injEq] at h
    subst h
    exact ⟨hv, hp⟩
  | succ k ih =>
    intro d dk hv hp h
    unfold afterPasses at h
    cases hb : loopBody sortMoves rand d with
    | next d1 =>
      rw [hb] at h
      obtain ⟨_, hmem, _⟩ := loopBody_next hs rand hb
      have hm := (mem_unvisited.1 hmem).1
      exact ih d1 dk (generateMoves_valid hv hm) (hP _ _ hv hp hm) h
    | solved d3 => rw [hb] at h; exact absurd h (by simp)
    | noMoves d3 => rw [hb] at h; exact absurd h (by simp)
    | limitReached d3 => rw [hb] at h; exact absurd h (by simp)

/-- The claim C19 read literally fails on `staleState`, a valid state whose stored
heuristic 2 is not the Manhattan sum 1 of its board: its successors have the
heuristics 2, 2 and 0, none of them 1 or 3, and the driver started on it lowers
the heuristic by 2 in one improving transition. -/
theorem C19_stale_counterexample :
    Valid staleState ∧
    staleState = ⟨[[1, 2, 3], [4, 5, 6], [7, 0, 8]], 2, 1, 2⟩ ∧
    manhattan staleState.board = 1 ∧
    (generateMoves staleState).map PuzzleState.heuristic = [2, 2, 0] ∧
    ¬ (∀ t ∈ generateMoves staleState,
        t.heuristic = staleState.heuristic + 1 ∨ t.heuristic = staleState.heuristic - 1) ∧
    loopBody stdSortMoves (fun _ => 0) (initDriver staleState) =
      Step.next
        { currentState := goalState
          visitedStates := [toString goalState, toString staleState]
          sideSteps := 0
          randCalls := 0
          output := [(2, staleState.board)] } ∧
    goalState.heuristic = staleState.heuristic - 2 := by
  decide

/-- C19, amended: the heuristic of a successor of a valid state whose stored heuristic
is the Manhattan sum of its board differs from the heuristic of the state by
exactly one; so in a run started on such a state an improving transition of the
driver lowers the heuristic by one and a side step raises it by one. -/
theorem C19_heuristic_changes_by_one (sortMoves : List PuzzleState → List PuzzleState)
    (hs : SortContract sortMoves) (rand : Nat → Nat) (s : PuzzleState) (hv : Valid s)
    (hh : s.heuristic = manhattan s.board) :
    (∀ t ∈ generateMoves s, t.heuristic = s.heuristic + 1 ∨ t.heuristic = s.heuristic - 1) ∧
    (∀ k d d1, afterPasses sortMoves rand k (initDriver s) = some d →
      loopBody sortMoves rand d = Step.next d1 →
      (d1.sideSteps = 0 ∧ d1.randCalls = d.randCalls ∧
        d1.currentState.heuristic = d.currentState.heuristic - 1) ∨
      (d1.sideSteps = d.sideSteps + 1 ∧ d1.randCalls = d.randCalls + 1 ∧
        d1.currentState.heuristic = d.currentState.heuristic + 1)) := by
  constructor
  · intro t ht
    rw [hh]
    exact generateMoves_step hv ht
  · intro k d d1 hk hb
    obtain ⟨hvd, hhd⟩ := afterPasses_preserves hs rand
      (fun s => s.heuristic = manhattan s.board)
      (fun _ _ _ _ ht => generateMoves_heuristic ht) k (initDriver s) d hv hh hk
    obtain ⟨_, hmem, _, _, hcase⟩ := loopBody_next hs rand hb
    have hstep := generateMoves_step hvd (mem_unvisited.1 hmem).1
    rw [← hhd] at hstep
    rcases hcase with ⟨hlt, h0, hr⟩ | ⟨hge, _, h1, hr, _⟩
    · exact Or.inl ⟨h0, hr, by omega⟩
    · exact Or.inr ⟨h1, hr, by omega⟩

theorem C19_heuristic_changes_by_one_witness :
    SortContract insertionSortMoves ∧ Valid plateauState ∧
    plateauState.heuristic = manhattan plateauState.board ∧
    (∀ t ∈ generateMoves plateauState,
      t.heuristic = plateauState.heuristic + 1 ∨ t.heuristic = plateauState.heuristic - 1) ∧
    (∀ k d d1, afterPasses insertionSortMoves (fun n => n) k (initDriver plateauState) = some d →
      loopBody insertionSortMoves (fun n => n) d = Step.next d1 →
      (d1.sideSteps = 0 ∧ d1.randCalls = d.randCalls ∧
        d1.currentState.heuristic = d.currentState.heuristic - 1) ∨
      (d1.sideSteps = d.sideSteps + 1 ∧ d1.randCalls = d.randCalls + 1 ∧
        d1.currentState.heuristic = d.currentState.heuristic + 1)) :=
  ⟨insertionSortMoves_contract, by decide, by decide,
    C19_heuristic_changes_by_one insertionSortMoves insertionSortMoves_contract (fun n => n)
      plateauState (by decide) (by decide)⟩

/-! ## Moves keep the parity of the inversions -/

theorem lt01_flip {a b : Int} (h : a ≠ b) : lt01 a b + lt01 b a = 1 := by
  unfold lt01
  split <;> split <;> omega

set_option maxHeartbeats 3200000 in
/-- A successor of a valid state has as many inversions as the state, up to an even
number: a move along a row keeps the sequence of tiles, a move along a column lets
one tile pass two others. -/
theorem successor_parity (s : PuzzleState) (hv : Valid s) (d : Int × Int)
    (hd : d ∈ directions) (ht : targetInGrid s d = true) :
    inversionCount (successor s d) % 2 = inversionCount s % 2 := by
  obtain ⟨b, er, ec, hh⟩ := s
  obtain ⟨⟨h3, hp⟩, ⟨h1, h2, h4, h5⟩, h0⟩ := hv
  obtain ⟨a0, a1, a2, a3, a4, a5, a6, a7, a8, rfl⟩ := is3x3_rows h3
  simp only at h1 h2 h4 h5 h0
  have hnd : [a0, a1, a2, a3, a4, a5, a6, a7, a8].Nodup := by
    have hp2 : List.Perm [a0, a1, a2, a3, a4, a5, a6, a7, a8] [0, 1, 2, 3, 4, 5, 6, 7, 8] := by
      simpa using hp
    exact hp2.nodup_iff.2 (by decide)
  simp only [List.nodup_cons, List.mem_cons, List.mem_singleton, List.not_mem_nil, not_or,
    or_false, not_false_eq_true, List.nodup_nil, and_true] at hnd
  obtain ⟨⟨n01, n02, n03, n04, n05, n06, n07, n08⟩,
    ⟨n12, n13, n14, n15, n16, n17, n18⟩,
    ⟨n23, n24, n25, n26, n27, n28⟩,
    ⟨n34, n35, n36, n37, n38⟩,
    ⟨n45, n46, n47, n48⟩,
    ⟨n56, n57, n58⟩,
    ⟨n67, n68⟩,
    n78⟩ := hnd
  have m01 := Ne.symm n01
  have m02 := Ne.symm n02
  have m03 := Ne.symm n03
  have m04 := Ne.symm n04
  have m05 := Ne.symm n05
  have m06 := Ne.symm n06
  have m07 := Ne.symm n07
  have m08 := Ne.symm n08
  have m12 := Ne.symm n12
  have m13 := Ne.symm n13
  have m14 := Ne.symm n14
  have m15 := Ne.symm n15
  have m16 := Ne.symm n16
  have m17 := Ne.symm n17
  have m18 := Ne.symm n18
  have m23 := Ne.symm n23
  have m24 := Ne.symm n24
  have m25 := Ne.symm n25
  have m26 := Ne.symm n26
  have m27 := Ne.symm n27
  have m28 := Ne.symm n28
  have m34 := Ne.symm n34
  have m35 := Ne.symm n35
  have m36 := Ne.symm n36
  have m37 := Ne.symm n37
  have m38 := Ne.symm n38
  have m45 := Ne.symm n45
  have m46 := Ne.symm n46
  have m47 := Ne.symm n47
  have m48 := Ne.symm n48
  have m56 := Ne.symm n56
  have m57 := Ne.symm n57
  have m58 := Ne.symm n58
  have m67 := Ne.symm n67
  have m68 := Ne.symm n68
  have m78 := Ne.symm n78
  clear hp h3
  rcases mem_directions hd with rfl | rfl | rfl | rfl
  · interval_cases er
    · interval_cases ec
      · exact absurd ht (by simp [targetInGrid, N])
      · exact absurd ht (by simp [targetInGrid, N])
      · exact absurd ht (by simp [targetInGrid, N])
    · interval_cases ec
      · simp only [cell, List.getD_cons_zero, List.getD_cons_succ, Int.toNat_zero, Int.toNat_one,
          toNat_two] at h0
        subst h0
        simp only [inversionCount, successor, swapTiles, calculateAndSetHeuristic]
        have q1 := lt01_flip n01
        have q2 := lt01_flip n02
        simp only [setCell, cell, tiles, inversions, Int.reduceAdd, Int.reduceNeg, Int.reduceToNat,
          Int.toNat_zero, Int.toNat_one, toNat_two, Int.reduceSub, add_zero, zero_add,
          List.getD_cons_zero, List.getD_cons_succ, List.set_cons_zero, List.set_cons_succ,
          List.flatten_cons, List.flatten_nil, List.cons_append, List.nil_append, List.append_nil,
          List.filter_cons, List.filter_nil, decide_eq_true_eq, ne_eq, not_true_eq_false,
          not_false_eq_true, if_true, if_false, ite_true, ite_false, decide_True, decide_False,
          Bool.true_eq_false, Bool.false_eq_true, decide_not, Bool.not_eq_true',
          decide_eq_false_iff_not, List.map_cons, List.map_nil, List.sum_cons, List.sum_nil,
          n03, n13, n23, m34, m35, m36, m37, m38, m03, m13, m23, n34, n35, n36, n37, n38]
        omega
      · simp only [cell, List.getD_cons_zero, List.getD_cons_succ, Int.toNat_zero, Int.toNat_one,
          toNat_two] at h0
        subst h0
        simp only [inversionCount, successor, swapTiles, calculateAndSetHeuristic]
        have q1 := lt01_flip n12
        have q2 := lt01_flip n13
        simp only [setCell, cell, tiles, inversions, Int.reduceAdd, Int.reduceNeg, Int.reduceToNat,
          Int.toNat_zero, Int.toNat_one, toNat_two, Int.reduceSub, add_zero, zero_add,
          List.getD_cons_zero, List.getD_cons_succ, List.set_cons_zero, List.set_cons_succ,
          List.flatten_cons, List.flatten_nil, List.cons_append, List.nil_append, List.append_nil,
          List.filter_cons, List.filter_nil, decide_eq_true_eq, ne_eq, not_true_eq_false,
          not_false_eq_true, if_true, if_false, ite_true, ite_false, decide_True, decide_False,
          Bool.true_eq_false, Bool.false_eq_true, decide_not, Bool.not_eq_true',
          decide_eq_false_iff_not, List.map_cons, List.map_nil, List.sum_cons, List.sum_nil,
          n04, n14, n24, n34, m45, m46, m47, m48, m04, m14, m24, m34, n45, n46, n47, n48]
        omega
      · simp only [cell, List.getD_cons_zero, List.getD_cons_succ, Int.toNat_zero, Int.toNat_one,
          toNat_two] at h0
        subst h0
        simp only [inversionCount, successor, swapTiles, calculateAndSetHeuristic]
        have q1 := lt01_flip n23
        have q2 := lt01_flip n24
        simp only [setCell, cell, tiles, inversions, Int.reduceAdd, Int.reduceNeg, Int.reduceToNat,
          Int.toNat_zero, Int.toNat_one, toNat_two, Int.reduceSub, add_zero, zero_add,
          List.getD_cons_zero, List.getD_cons_succ, List.set_cons_zero, List.set_cons_succ,
          List.flatten_cons, List.flatten_nil, List.cons_append, List.nil_append, List.append_nil,
          List.filter_cons, List.filter_nil, decide_eq_true_eq, ne_eq, not_true_eq_false,
          not_false_eq_true, if_true, if_false, ite_true, ite_false, decide_True, decide_False,
          Bool.true_eq_false, Bool.false_eq_true, decide_not, Bool.not_eq_true',
          decide_eq_false_iff_not, List.map_cons, List.map_nil, List.sum_cons, List.sum_nil,
          n05, n15, n25, n35, n45, m56, m57, m58, m05, m15, m25, m35, m45, n56, n57, n58]
        omega
    · interval_cases ec
      · simp only [cell, List.getD_cons_zero, List.getD_cons_succ, Int.toNat_zero, Int.toNat_one,
          toNat_two] at h0
        subst h0
        simp only [inversionCount, successor, swapTiles, calculateAndSetHeuristic]
        have q1 := lt01_flip n34
        have q2 := lt01_flip n35
        simp only [setCell, cell, tiles, inversions, Int.reduceAdd, Int.reduceNeg, Int.reduceToNat,
          Int.toNat_zero, Int.toNat_one, toNat_two, Int.reduceSub, add_zero, zero_add,
          List.getD_cons_zero, List.getD_cons_succ, List.set_cons_zero, List.set_cons_succ,
          List.flatten_cons, List.flatten_nil, List.cons_append, List.nil_append, List.append_nil,
          List.filter_cons, List.filter_nil, decide_eq_true_eq, ne_eq, not_true_eq_false,
          not_false_eq_true, if_true, if_false, ite_true, ite_false, decide_True, decide_False,
          Bool.true_eq_false, Bool.false_eq_true, decide_not, Bool.not_eq_true',
          decide_eq_false_iff_not, List.map_cons, List.map_nil, List.sum_cons, List.sum_nil,
          n06, n16, n26, n36, n46, n56, m67, m68, m06, m16, m26, m36, m46, m56, n67, n68]
        omega
      · simp only [cell, List.getD_cons_zero, List.getD_cons_succ, Int.toNat_zero, Int.toNat_one,
          toNat_two] at h0
        subst h0
        simp only [inversionCount, successor, swapTiles, calculateAndSetHeuristic]
        have q1 := lt01_flip n45
        have q2 := lt01_flip n46
        simp only [setCell, cell, tiles, inversions, Int.reduceAdd, Int.reduceNeg, Int.reduceToNat,
          Int.toNat_zero, Int.toNat_one, toNat_two, Int.reduceSub, add_zero, zero_add,
          List.getD_cons_zero, List.getD_cons_succ, List.set_cons_zero, List.set_cons_succ,
          List.flatten_cons, List.flatten_nil, List.cons_append, List.nil_append, List.append_nil,
          List.filter_cons, List.filter_nil, decide_eq_true_eq, ne_eq, not_true_eq_false,
          not_false_eq_true, if_true, if_false, ite_true, ite_false, decide_True, decide_False,
          Bool.true_eq_false, Bool.false_eq_true, decide_not, Bool.not_eq_true',
          decide_eq_false_iff_not, List.map_cons, List.map_nil, List.sum_cons, List.sum_nil,
          n07, n17, n27, n37, n47, n57, n67, m78, m07, m17, m27, m37, m47, m57, m67, n78]
        omega
      · simp only [cell, List.getD_cons_zero, List.getD_cons_succ, Int.toNat_zero, Int.toNat_one,
          toNat_two] at h0
        subst h0
        simp only [inversionCount, successor, swapTiles, calculateAndSetHeuristic]
        have q1 := lt01_flip n56
        have q2 := lt01_flip n57
        simp only [setCell, cell, tiles, inversions, Int.reduceAdd, Int.reduceNeg, Int.reduceToNat,
          Int.toNat_zero, Int.toNat_one, toNat_two, Int.reduceSub, add_zero, zero_add,
          List.getD_cons_zero, List.getD_cons_succ, List.set_cons_zero, List.set_cons_succ,
          List.flatten_cons, List.flatten_nil, List.cons_append, List.nil_append, List.append_nil,
          List.filter_cons, List.filter_nil, decide_eq_true_eq, ne_eq, not_true_eq_false,
          not_false_eq_true, if_true, if_false, ite_true, ite_false, decide_True, decide_False,
          Bool.true_eq_false, Bool.false_eq_true, decide_not, Bool.not_eq_true',
          decide_eq_false_iff_not, List.map_cons, List.map_nil, List.sum_cons, List.sum_nil,
          n08, n18, n28, n38, n48, n58, n68, n78, m08, m18, m28, m38, m48, m58, m68, m78]
        omega
  · interval_cases er
    · interval_cases ec
      · simp only [cell, List.getD_cons_zero, List.getD_cons_succ, Int.toNat_zero, Int.toNat_one,
          toNat_two] at h0
        subst h0
        simp only [inversionCount, successor, swapTiles, calculateAndSetHeuristic]
        have q1 := lt01_flip m13
        have q2 := lt01_flip m23
        simp only [setCell, cell, tiles, inversions, Int.reduceAdd, Int.reduceNeg, Int.reduceToNat,
          Int.toNat_zero, Int.toNat_one, toNat_two, Int.reduceSub, add_zero, zero_add,
          List.getD_cons_zero, List.getD_cons_succ, List.set_cons_zero, List.set_cons_succ,
          List.flatten_cons, List.flatten_nil, List.cons_append, List.nil_append, List.append_nil,
          List.filter_cons, List.filter_nil, decide_eq_true_eq, ne_eq, not_true_eq_false,
          not_false_eq_true, if_true, if_false, ite_true, ite_false, decide_True, decide_False,
          Bool.true_eq_false, Bool.false_eq_true, decide_not, Bool.not_eq_true',
          decide_eq_false_iff_not, List.map_cons, List.map_nil, List.sum_cons, List.sum_nil,
          m01, m02, m03, m04, m05, m06, m07, m08, n01, n02, n03, n04, n05, n06, n07, n08]
        omega
      · simp only [cell, List.getD_cons_zero, List.getD_cons_succ, Int.toNat_zero, Int.toNat_one,
          toNat_two] at h0
        subst h0
        simp only [inversionCount, successor, swapTiles, calculateAndSetHeuristic]
        have q1 := lt01_flip m24
        have q2 := lt01_flip m34
        simp only [setCell, cell, tiles, inversions, Int.reduceAdd, Int.reduceNeg, Int.reduceToNat,
          Int.toNat_zero, Int.toNat_one, toNat_two, Int.reduceSub, add_zero, zero_add,
          List.getD_cons_zero, List.getD_cons_succ, List.set_cons_zero, List.set_cons_succ,
          List.flatten_cons, List.flatten_nil, List.cons_append, List.nil_append, List.append_nil,
          List.filter_cons, List.filter_nil, decide_eq_true_eq, ne_eq, not_true_eq_false,
          not_false_eq_true, if_true, if_false, ite_true, ite_false, decide_True, decide_False,
          Bool.true_eq_false, Bool.false_eq_true, decide_not, Bool.not_eq_true',
          decide_eq_false_iff_not, List.map_cons, List.map_nil, List.sum_cons, List.sum_nil,
          n01, m12, m13, m14, m15, m16, m17, m18, m01, n12, n13, n14, n15, n16, n17, n18]
        omega
      · simp only [cell, List.getD_cons_zero, List.getD_cons_succ, Int.toNat_zero, Int.toNat_one,
          toNat_two] at h0
        subst h0
        simp only [inversionCount, successor, swapTiles, calculateAndSetHeuristic]
        have q1 := lt01_flip m35
        have q2 := lt01_flip m45
        simp only [setCell, cell, tiles, inversions, Int.reduceAdd, Int.reduceNeg, Int.reduceToNat,
          Int.toNat_zero, Int.toNat_one, toNat_two, Int.reduceSub, add_zero, zero_add,
          List.getD_cons_zero, List.getD_cons_succ, List.set_cons_zero, List.set_cons_succ,
          List.flatten_cons, List.flatten_nil, List.cons_append, List.nil_append, List.append_nil,
          List.filter_cons, List.filter_nil, decide_eq_true_eq, ne_eq, not_true_eq_false,
          not_false_eq_true, if_true, if_false, ite_true, ite_false, decide_True, decide_False,
          Bool.true_eq_false, Bool.false_eq_true, decide_not, Bool.not_eq_true',
          decide_eq_false_iff_not, List.map_cons, List.map_nil, List.sum_cons, List.sum_nil,
          n02, n12, m23, m24, m25, m26, m27, m28, m02, m12, n23, n24, n25, n26, n27, n28]
        omega
    · interval_cases ec
      · simp only [cell, List.getD_cons_zero, List.getD_cons_succ, Int.toNat_zero, Int.toNat_one,
          toNat_two] at h0
        subst h0
        simp only [inversionCount, successor, swapTiles, calculateAndSetHeuristic]
        have q1 := lt01_flip m46
        have q2 := lt01_flip m56
        simp only [setCell, cell, tiles, inversions, Int.reduceAdd, Int.reduceNeg, Int.reduceToNat,
          Int.toNat_zero, Int.toNat_one, toNat_two, Int.reduceSub, add_zero, zero_add,
          List.getD_cons_zero, List.getD_cons_succ, List.set_cons_zero, List.set_cons_succ,
          List.flatten_cons, List.flatten_nil, List.cons_append, List.nil_append, List.append_nil,
          List.filter_cons, List.filter_nil, decide_eq_true_eq, ne_eq, not_true_eq_false,
          not_false_eq_true, if_true, if_false, ite_true, ite_false, decide_True, decide_False,
          Bool.true_eq_false, Bool.false_eq_true, decide_not, Bool.not_eq_true',
          decide_eq_false_iff_not, List.map_cons, List.map_nil, List.sum_cons, List.sum_nil,
          n03, n13, n23, m34, m35, m36, m37, m38, m03, m13, m23, n34, n35, n36, n37, n38]
        omega
      · simp only [cell, List.getD_cons_zero, List.getD_cons_succ, Int.toNat_zero, Int.toNat_one,
          toNat_two] at h0
        subst h0
        simp only [inversionCount, successor, swapTiles, calculateAndSetHeuristic]
        have q1 := lt01_flip m57
        have q2 := lt01_flip m67
        simp only [setCell, cell, tiles, inversions, Int.reduceAdd, Int.reduceNeg, Int.reduceToNat,
          Int.toNat_zero, Int.toNat_one, toNat_two, Int.reduceSub, add_zero, zero_add,
          List.getD_cons_zero, List.getD_cons_succ, List.set_cons_zero, List.set_cons_succ,
          List.flatten_cons, List.flatten_nil, List.cons_append, List.nil_append, List.append_nil,
          List.filter_cons, List.filter_nil, decide_eq_true_eq, ne_eq, not_true_eq_false,
          not_false_eq_true, if_true, if_false, ite_true, ite_false, decide_True, decide_False,
          Bool.true_eq_false, Bool.false_eq_true, decide_not, Bool.not_eq_true',
          decide_eq_false_iff_not, List.map_cons, List.map_nil, List.sum_cons, List.sum_nil,
          n04, n14, n24, n34, m45, m46, m47, m48, m04, m14, m24, m34, n45, n46, n47, n48]
        omega
      · simp only [cell, List.getD_cons_zero, List.getD_cons_succ, Int.toNat_zero, Int.toNat_one,
          toNat_two] at h0
        subst h0
        simp only [inversionCount, successor, swapTiles, calculateAndSetHeuristic]
        have q1 := lt01_flip m68
        have q2 := lt01_flip m78
        simp only [setCell, cell, tiles, inversions, Int.reduceAdd, Int.reduceNeg, Int.reduceToNat,
          Int.toNat_zero, Int.toNat_one, toNat_two, Int.reduceSub, add_zero, zero_add,
          List.getD_cons_zero, List.getD_cons_succ, List.set_cons_zero, List.set_cons_succ,
          List.flatten_cons, List.flatten_nil, List.cons_append, List.nil_append, List.append_nil,
          List.filter_cons, List.filter_nil, decide_eq_true_eq, ne_eq, not_true_eq_false,
          not_false_eq_true, if_true, if_false, ite_true, ite_false, decide_True, decide_False,
          Bool.true_eq_false, Bool.false_eq_true, decide_not, Bool.not_eq_true',
          decide_eq_false_iff_not, List.map_cons, List.map_nil, List.sum_cons, List.sum_nil,
          n05, n15, n25, n35, n45, m56, m57, m58, m05, m15, m25, m35, m45, n56, n57, n58]
        omega
    · interval_cases ec
      · exact absurd ht (by simp [targetInGrid, N])
      · exact absurd ht (by simp [targetInGrid, N])
      · exact absurd ht (by simp [targetInGrid, N])
  · interval_cases er
    · interval_cases ec
      · exact absurd ht (by simp [targetInGrid, N])
      · simp only [cell, List.getD_cons_zero, List.getD_cons_succ, Int.toNat_zero, Int.toNat_one,
          toNat_two] at h0
        subst h0
        simp only [inversionCount, successor, swapTiles, calculateAndSetHeuristic]
        simp only [setCell, cell, tiles, inversions, Int.reduceAdd, Int.reduceNeg, Int.reduceToNat,
          Int.toNat_zero, Int.toNat_one, toNat_two, Int.reduceSub, add_zero, zero_add,
          List.getD_cons_zero, List.getD_cons_succ, List.set_cons_zero, List.set_cons_succ,
          List.flatten_cons, List.flatten_nil, List.cons_append, List.nil_append, List.append_nil,
          List.filter_cons, List.filter_nil, decide_eq_true_eq, ne_eq, not_true_eq_false,
          not_false_eq_true, if_true, if_false, ite_true, ite_false, decide_True, decide_False,
          Bool.true_eq_false, Bool.false_eq_true, decide_not, Bool.not_eq_true',
          decide_eq_false_iff_not, List.map_cons, List.map_nil, List.sum_cons, List.sum_nil,
          n01, m12, m13, m14, m15, m16, m17, m18, m01, n12, n13, n14, n15, n16, n17, n18]
      · simp only [cell, List.getD_cons_zero, List.getD_cons_succ, Int.toNat_zero, Int.toNat_one,
          toNat_two] at h0
        subst h0
        simp only [inversionCount, successor, swapTiles, calculateAndSetHeuristic]
        simp only [setCell, cell, tiles, inversions, Int.reduceAdd, Int.reduceNeg, Int.reduceToNat,
          Int.toNat_zero, Int.toNat_one, toNat_two, Int.reduceSub, add_zero, zero_add,
          List.getD_cons_zero, List.getD_cons_succ, List.set_cons_zero, List.set_cons_succ,
          List.flatten_cons, List.flatten_nil, List.cons_append, List.nil_append, List.append_nil,
          List.filter_cons, List.filter_nil, decide_eq_true_eq, ne_eq, not_true_eq_false,
          not_false_eq_true, if_true, if_false, ite_true, ite_false, decide_True, decide_False,
          Bool.true_eq_false, Bool.false_eq_true, decide_not, Bool.not_eq_true',
          decide_eq_false_iff_not, List.map_cons, List.map_nil, List.sum_cons, List.sum_nil,
          n02, n12, m23, m24, m25, m26, m27, m28, m02, m12, n23, n24, n25, n26, n27, n28]
    · interval_cases ec
      · exact absurd ht (by simp [targetInGrid, N])
      · simp only [cell, List.getD_cons_zero, List.getD_cons_succ, Int.toNat_zero, Int.toNat_one,
          toNat_two] at h0
        subst h0
        simp only [inversionCount, successor, swapTiles, calculateAndSetHeuristic]
        simp only [setCell, cell, tiles, inversions, Int.reduceAdd, Int.reduceNeg, Int.reduceToNat,
          Int.toNat_zero, Int.toNat_one, toNat_two, Int.reduceSub, add_zero, zero_add,
          List.getD_cons_zero, List.getD_cons_succ, List.set_cons_zero, List.set_cons_succ,
          List.flatten_cons, List.flatten_nil, List.cons_append, List.nil_append, List.append_nil,
          List.filter_cons, List.filter_nil, decide_eq_true_eq, ne_eq, not_true_eq_false,
          not_false_eq_true, if_true, if_false, ite_true, ite_false, decide_True, decide_False,
          Bool.true_eq_false, Bool.false_eq_true, decide_not, Bool.not_eq_true',
          decide_eq_false_iff_not, List.map_cons, List.map_nil, List.sum_cons, List.sum_nil,
          n04, n14, n24, n34, m45, m46, m47, m48, m04, m14, m24, m34, n45, n46, n47, n48]
      · simp only [cell, List.getD_cons_zero, List.getD_cons_succ, Int.toNat_zero, Int.toNat_one,
          toNat_two] at h0
        subst h0
        simp only [inversionCount, successor, swapTiles, calculateAndSetHeuristic]
        simp only [setCell, cell, tiles, inversions, Int.reduceAdd, Int.reduceNeg, Int.reduceToNat,
          Int.toNat_zero, Int.toNat_one, toNat_two, Int.reduceSub, add_zero, zero_add,
          List.getD_cons_zero, List.getD_cons_succ, List.set_cons_zero, List.set_cons_succ,
          List.flatten_cons, List.flatten_nil, List.cons_append, List.nil_append, List.append_nil,
          List.filter_cons, List.filter_nil, decide_eq_true_eq, ne_eq, not_true_eq_false,
          not_false_eq_true, if_true, if_false, ite_true, ite_false, decide_True, decide_False,
          Bool.true_eq_false, Bool.false_eq_true, decide_not, Bool.not_eq_true',
          decide_eq_false_iff_not, List.map_cons, List.map_nil, List.sum_cons, List.sum_nil,
          n05, n15, n25, n35, n45, m56, m57, m58, m05, m15, m25, m35, m45, n56, n57, n58]
    · interval_cases ec
      · exact absurd ht (by simp [targetInGrid, N])
      · simp only [cell, List.getD_cons_zero, List.getD_cons_succ, Int.toNat_zero, Int.toNat_one,
          toNat_two] at h0
        subst h0
        simp only [inversionCount, successor, swapTiles, calculateAndSetHeuristic]
        simp only [setCell, cell, tiles, inversions, Int.reduceAdd, Int.reduceNeg, Int.reduceToNat,
          Int.toNat_zero, Int.toNat_one, toNat_two, Int.reduceSub, add_zero, zero_add,
          List.getD_cons_zero, List.getD_cons_succ, List.set_cons_zero, List.set_cons_succ,
          List.flatten_cons, List.flatten_nil, List.cons_append, List.nil_append, List.append_nil,
          List.filter_cons, List.filter_nil, decide_eq_true_eq, ne_eq, not_true_eq_false,
          not_false_eq_true, if_true, if_false, ite_true, ite_false, decide_True, decide_False,
          Bool.true_eq_false, Bool.false_eq_true, decide_not, Bool.not_eq_true',
          decide_eq_false_iff_not, List.map_cons, List.map_nil, List.sum_cons, List.sum_nil,
          n07, n17, n27, n37, n47, n57, n67, m78, m07, m17, m27, m37, m47, m57, m67, n78]
      · simp only [cell, List.getD_cons_zero, List.getD_cons_succ, Int.toNat_zero, Int.toNat_one,
          toNat_two] at h0
        subst h0
        simp only [inversionCount, successor, swapTiles, calculateAndSetHeuristic]
        simp only [setCell, cell, tiles, inversions, Int.reduceAdd, Int.reduceNeg, Int.reduceToNat,
          Int.toNat_zero, Int.toNat_one, toNat_two, Int.reduceSub, add_zero, zero_add,
          List.getD_cons_zero, List.getD_cons_succ, List.set_cons_zero, List.set_cons_succ,
          List.flatten_cons, List.flatten_nil, List.cons_append, List.nil_append, List.append_nil,
          List.filter_cons, List.filter_nil, decide_eq_true_eq, ne_eq, not_true_eq_false,
          not_false_eq_true, if_true, if_false, ite_true, ite_false, decide_True, decide_False,
          Bool.true_eq_false, Bool.false_eq_true, decide_not, Bool.not_eq_true',
          decide_eq_false_iff_not, List.map_cons, List.map_nil, List.sum_cons, List.sum_nil,
          n08, n18, n28, n38, n48, n58, n68, n78, m08, m18, m28, m38, m48, m58, m68, m78]
  · interval_cases er
    · interval_cases ec
      · simp only [cell, List.getD_cons_zero, List.getD_cons_succ, Int.toNat_zero, Int.toNat_one,
          toNat_two] at h0
        subst h0
        simp only [inversionCount, successor, swapTiles, calculateAndSetHeuristic]
        simp only [setCell, cell, tiles, inversions, Int.reduceAdd, Int.reduceNeg, Int.reduceToNat,
          Int.toNat_zero, Int.toNat_one, toNat_two, Int.reduceSub, add_zero, zero_add,
          List.getD_cons_zero, List.getD_cons_succ, List.set_cons_zero, List.set_cons_succ,
          List.flatten_cons, List.flatten_nil, List.cons_append, List.nil_append, List.append_nil,
          List.filter_cons, List.filter_nil, decide_eq_true_eq, ne_eq, not_true_eq_false,
          not_false_eq_true, if_true, if_false, ite_true, ite_false, decide_True, decide_False,
          Bool.true_eq_false, Bool.false_eq_true, decide_not, Bool.not_eq_true',
          decide_eq_false_iff_not, List.map_cons, List.map_nil, List.sum_cons, List.sum_nil,
          m01, m02, m03, m04, m05, m06, m07, m08, n01, n02, n03, n04, n05, n06, n07, n08]
      · simp only [cell, List.getD_cons_zero, List.getD_cons_succ, Int.toNat_zero, Int.toNat_one,
          toNat_two] at h0
        subst h0
        simp only [inversionCount, successor, swapTiles, calculateAndSetHeuristic]
        simp only [setCell, cell, tiles, inversions, Int.reduceAdd, Int.reduceNeg, Int.reduceToNat,
          Int.toNat_zero, Int.toNat_one, toNat_two, Int.reduceSub, add_zero, zero_add,
          List.getD_cons_zero, List.getD_cons_succ, List.set_cons_zero, List.set_cons_succ,
          List.flatten_cons, List.flatten_nil, List.cons_append, List.nil_append, List.append_nil,
          List.filter_cons, List.filter_nil, decide_eq_true_eq, ne_eq, not_true_eq_false,
          not_false_eq_true, if_true, if_false, ite_true, ite_false, decide_True, decide_False,
          Bool.true_eq_false, Bool.false_eq_true, decide_not, Bool.not_eq_true',
          decide_eq_false_iff_not, List.map_cons, List.map_nil, List.sum_cons, List.sum_nil,
          n01, m12, m13, m14, m15, m16, m17, m18, m01, n12, n13, n14, n15, n16, n17, n18]
      · exact absurd ht (by simp [targetInGrid, N])
    · interval_cases ec
      · simp only [cell, List.getD_cons_zero, List.getD_cons_succ, Int.toNat_zero, Int.toNat_one,
          toNat_two] at h0
        subst h0
        simp only [inversionCount, successor, swapTiles, calculateAndSetHeuristic]
        simp only [setCell, cell, tiles, inversions, Int.reduceAdd, Int.reduceNeg, Int.reduceToNat,
          Int.toNat_zero, Int.toNat_one, toNat_two, Int.reduceSub, add_zero, zero_add,
          List.getD_cons_zero, List.getD_cons_succ, List.set_cons_zero, List.set_cons_succ,
          List.flatten_cons, List.flatten_nil, List.cons_append, List.nil_append, List.append_nil,
          List.filter_cons, List.filter_nil, decide_eq_true_eq, ne_eq, not_true_eq_false,
          not_false_eq_true, if_true, if_false, ite_true, ite_false, decide_True, decide_False,
          Bool.true_eq_false, Bool.false_eq_true, decide_not, Bool.not_eq_true',
          decide_eq_false_iff_not, List.map_cons, List.map_nil, List.sum_cons, List.sum_nil,
          n03, n13, n23, m34, m35, m36, m37, m38, m03, m13, m23, n34, n35, n36, n37, n38]
      · simp only [cell, List.getD_cons_zero, List.getD_cons_succ, Int.toNat_zero, Int.toNat_one,
          toNat_two] at h0
        subst h0
        simp only [inversionCount, successor, swapTiles, calculateAndSetHeuristic]
        simp only [setCell, cell, tiles, inversions, Int.reduceAdd, Int.reduceNeg, Int.reduceToNat,
          Int.toNat_zero, Int.toNat_one, toNat_two, Int.reduceSub, add_zero, zero_add,
          List.getD_cons_zero, List.getD_cons_succ, List.set_cons_zero, List.set_cons_succ,
          List.flatten_cons, List.flatten_nil, List.cons_append, List.nil_append, List.append_nil,
          List.filter_cons, List.filter_nil, decide_eq_true_eq, ne_eq, not_true_eq_false,
          not_false_eq_true, if_true, if_false, ite_true, ite_false, decide_True, decide_False,
          Bool.true_eq_false, Bool.false_eq_true, decide_not, Bool.not_eq_true',
          decide_eq_false_iff_not, List.map_cons, List.map_nil, List.sum_cons, List.sum_nil,
          n04, n14, n24, n34, m45, m46, m47, m48, m04, m14, m24, m34, n45, n46, n47, n48]
      · exact absurd ht (by simp [targetInGrid, N])
    · interval_cases ec
      · simp only [cell, List.getD_cons_zero, List.getD_cons_succ, Int.toNat_zero, Int.toNat_one,
          toNat_two] at h0
        subst h0
        simp only [inversionCount, successor, swapTiles, calculateAndSetHeuristic]
        simp only [setCell, cell, tiles, inversions, Int.reduceAdd, Int.reduceNeg, Int.reduceToNat,
          Int.toNat_zero, Int.toNat_one, toNat_two, Int.reduceSub, add_zero, zero_add,
          List.getD_cons_zero, List.getD_cons_succ, List.set_cons_zero, List.set_cons_succ,
          List.flatten_cons, List.flatten_nil, List.cons_append, List.nil_append, List.append_nil,
          List.filter_cons, List.filter_nil, decide_eq_true_eq, ne_eq, not_true_eq_false,
          not_false_eq_true, if_true, if_false, ite_true, ite_false, decide_True, decide_False,
          Bool.true_eq_false, Bool.false_eq_true, decide_not, Bool.not_eq_true',
          decide_eq_false_iff_not, List.map_cons, List.map_nil, List.sum_cons, List.sum_nil,
          n06, n16, n26, n36, n46, n56, m67, m68, m06, m16, m26, m36, m46, m56, n67, n68]
      · simp only [cell, List.getD_cons_zero, List.getD_cons_succ, Int.toNat_zero, Int.toNat_one,
          toNat_two] at h0
        subst h0
        simp only [inversionCount, successor, swapTiles, calculateAndSetHeuristic]
        simp only [setCell, cell, tiles, inversions, Int.reduceAdd, Int.reduceNeg, Int.reduceToNat,
          Int.toNat_zero, Int.toNat_one, toNat_two, Int.reduceSub, add_zero, zero_add,
          List.getD_cons_zero, List.getD_cons_succ, List.set_cons_zero, List.set_cons_succ,
          List.flatten_cons, List.flatten_nil, List.cons_append, List.nil_append, List.append_nil,
          List.filter_cons, List.filter_nil, decide_eq_true_eq, ne_eq, not_true_eq_false,
          not_false_eq_true, if_true, if_false, ite_true, ite_false, decide_True, decide_False,
          Bool.true_eq_false, Bool.false_eq_true, decide_not, Bool.not_eq_true',
          decide_eq_false_iff_not, List.map_cons, List.map_nil, List.sum_cons, List.sum_nil,
          n07, n17, n27, n37, n47, n57, n67, m78, m07, m17, m27, m37, m47, m57, m67, n78]
      · exact absurd ht (by simp [targetInGrid, N])

theorem generateMoves_parity {s : PuzzleState} (hv : Valid s) {t : PuzzleState}
    (ht : t ∈ generateMoves s) : inversionCount t % 2 = inversionCount s % 2 := by
  rw [generateMoves_eq] at ht
  obtain ⟨d, hd, rfl⟩ := List.mem_map.1 ht
  have hd2 := List.mem_filter.1 hd
  exact successor_parity s hv d hd2.1 hd2.2

theorem isGoal_inversionCount {s : PuzzleState} (h3 : is3x3 s.board) (hg : isGoal s = true) :
    inversionCount s = 0 := by
  obtain ⟨b, er, ec, h⟩ := s
  obtain ⟨a0, a1, a2, a3, a4, a5, a6, a7, a8, rfl⟩ := is3x3_rows h3
  have hb := (isGoal_rows a0 a1 a2 a3 a4 a5 a6 a7 a8 er ec h).1 hg
  unfold inversionCount
  simp only
  rw [hb]
  decide

/-- Started on a valid state with an odd number of inversions, the loop returns a
driver whose current state is valid, has an odd number of inversions and is not
a goal state. -/
theorem odd_run_not_goal {sortMoves : List PuzzleState → List PuzzleState}
    (hs : SortContract sortMoves) (rand : Nat → Nat) {s : PuzzleState} (hv : Valid s)
    (hodd : inversionCount s % 2 = 1) {fuel : Nat} {r : Driver}
    (hr : hillClimbLoop sortMoves rand fuel (initDriver s) = some r) :
    Valid r.currentState ∧ inversionCount r.currentState % 2 = 1 ∧
      isGoal r.currentState = false := by
  obtain ⟨k, dk, _, hak, hex⟩ := hillClimbLoop_exit sortMoves rand fuel _ r hr
  obtain ⟨e1, _⟩ := loopBody_stop sortMoves rand hex
  obtain ⟨hvk, hpk⟩ := afterPasses_preserves hs rand (fun u => inversionCount u % 2 = 1)
    (fun u t hu hp ht => (generateMoves_parity hu ht).trans hp) k (initDriver s) dk hv hodd
    hak
  rw [e1]
  refine ⟨hvk, hpk, ?_⟩
  cases hg : isGoal dk.currentState with
  | false => rfl
  | true =>
    have := isGoal_inversionCount hvk.1.1 hg
    rw [this] at hpk
    exact absurd hpk (by decide)

/-- C20: a move keeps the parity of the number of inversions of the tiles of a valid
board, so the driver started on a valid state with an odd number of inversions,
such as `[[1,2,3],[4,5,6],[8,7,0]]`, returns a state that is not a goal state,
whatever `rand()` returns. -/
theorem C20_unsolvable_never_solved (sortMoves : List PuzzleState → List PuzzleState)
    (hs : SortContract sortMoves) (rand : Nat → Nat) (s : PuzzleState) (hv : Valid s)
    (hodd : inversionCount s % 2 = 1) :
    (∀ u, Valid u → ∀ t ∈ generateMoves u, inversionCount t % 2 = inversionCount u % 2) ∧
    (∃ r, hillClimbWithSideStepping sortMoves rand keyBound s = some r ∧ isGoal r = false) ∧
    (∀ fuel r, hillClimbWithSideStepping sortMoves rand fuel s = some r → isGoal r = false) ∧
    plateauState = ⟨[[1, 2, 3], [4, 5, 6], [8, 7, 0]], 2, 2, 2⟩ ∧ Valid plateauState ∧
    inversionCount plateauState = 1 ∧ inversionCount goalState = 0 := by
  refine ⟨fun u hu t ht => generateMoves_parity hu ht, ?_, ?_, by decide, by decide, by decide,
    by decide⟩
  · obtain ⟨r0, hr0, _⟩ := hillClimb_returns hs rand hv
    exact ⟨r0.currentState, by simp [hillClimbWithSideStepping, hr0],
      (odd_run_not_goal hs rand hv hodd hr0).2.2⟩
  · intro fuel r hr
    unfold hillClimbWithSideStepping at hr
    obtain ⟨r1, hr1, rfl⟩ := Option.map_eq_some'.1 hr
    exact (odd_run_not_goal hs rand hv hodd hr1).2.2

theorem C20_unsolvable_never_solved_witness :
    SortContract insertionSortMoves ∧ Valid plateauState ∧ inversionCount plateauState % 2 = 1 ∧
    (∃ r, hillClimbWithSideStepping insertionSortMoves (fun n => n) keyBound plateauState =
      some r ∧ isGoal r = false) ∧
    (∀ fuel r, hillClimbWithSideStepping insertionSortMoves (fun n => n) fuel plateauState =
      some r → isGoal r = false) :=
  have h := C20_unsolvable_never_solved insertionSortMoves insertionSortMoves_contract
    (fun n => n) plateauState (by decide) (by decide)
  ⟨insertionSortMoves_contract, by decide, by decide, h.2.1, h.2.2.1⟩

end HillClimbing
